import Mathlib

/-!
GlacierUI core theming logic: a shallow embedding

This file embeds the color-math, palette-generation, dictionary-lookup,
deep-merge and validation subsystems of the GlacierUI repository in Lean 4
and proves the announced properties of that code.

Modelling conventions:
* JavaScript numbers are modelled as exact rationals (`ℚ`) in all code paths
  that only use field operations, comparisons, `Math.round`, `Math.min` and
  `Math.max`.  The WCAG luminance computation applies `Math.pow (· , 2.4)`,
  which leaves the rationals, so luminance and everything downstream of it is
  modelled over `ℝ` with `Real.rpow`.
* `parseInt(s, 16)` returning `NaN` is modelled as `Option ℤ` returning
  `none`; JavaScript `NaN`-poisoned records are modelled by propagating
  `none` through `Option`.
* JavaScript objects (theme values, overrides) are modelled as a JSON-like
  inductive type whose object nodes are insertion-ordered association lists.
-/

/-- `Math.round` of JavaScript: round half toward positive infinity. -/
def jsRound (x : ℚ) : ℤ := Int.floor (x + 1/2)

/-- `Math.max(0, Math.min(255, n))` on an integer. -/
def clamp255 (n : ℤ) : ℤ := max 0 (min 255 n)

/-- Is the character an ASCII hex digit (either case)? -/
def isHexDigitChar (c : Char) : Bool :=
  match c with
  | '0' | '1' | '2' | '3' | '4' | '5' | '6' | '7' | '8' | '9'
  | 'a' | 'b' | 'c' | 'd' | 'e' | 'f'
  | 'A' | 'B' | 'C' | 'D' | 'E' | 'F' => true
  | _ => false

/-- Numeric value of a hex digit character (0 for non-digits). -/
def hexDigitVal (c : Char) : ℕ :=
  match c with
  | '0' => 0 | '1' => 1 | '2' => 2 | '3' => 3 | '4' => 4
  | '5' => 5 | '6' => 6 | '7' => 7 | '8' => 8 | '9' => 9
  | 'a' => 10 | 'b' => 11 | 'c' => 12 | 'd' => 13 | 'e' => 14 | 'f' => 15
  | 'A' => 10 | 'B' => 11 | 'C' => 12 | 'D' => 13 | 'E' => 14 | 'F' => 15
  | _ => 0

/-- Lowercase hex digit character for a value `0..15` (`Number.toString(16)`
emits lowercase digits). -/
def hexDigitChar (n : ℕ) : Char :=
  match n with
  | 0 => '0' | 1 => '1' | 2 => '2' | 3 => '3' | 4 => '4'
  | 5 => '5' | 6 => '6' | 7 => '7' | 8 => '8' | 9 => '9'
  | 10 => 'a' | 11 => 'b' | 12 => 'c' | 13 => 'd' | 14 => 'e'
  | _ => 'f'

/-- Longest-prefix hex accumulation of JavaScript `parseInt(·, 16)`: consume
leading hex digits, ignore the rest. -/
def parseHexDigits : List Char → ℕ → ℕ × Bool
  | [], acc => (acc, false)
  | c :: cs, acc =>
    if isHexDigitChar c then
      let r := parseHexDigits cs (acc * 16 + hexDigitVal c)
      (r.1, true)
    else (acc, false)

/-- `parseInt(s, 16)`: skip leading whitespace, optional sign, optional
`0x`/`0X` prefix, then the longest run of hex digits; `NaN` (here `none`)
when that run is empty. -/
def parseJsHexInt (s : List Char) : Option ℤ :=
  let s1 := s.dropWhile (fun c => c.isWhitespace)
  let neg : Bool := s1.head? = some '-'
  let s2 := if s1.head? = some '-' ∨ s1.head? = some '+' then s1.tail else s1
  let s3 := if s2.head? = some '0' ∧
      (s2.tail.head? = some 'x' ∨ s2.tail.head? = some 'X')
    then s2.tail.tail else s2
  match parseHexDigits s3 0 with
  | (_, false) => none
  | (v, true) => some ((if neg then -1 else 1) * (v : ℤ))

/-- An RGB record as produced by `hexToRgb` (JavaScript numbers as `ℚ`). -/
structure RGB where
  r : ℚ
  g : ℚ
  b : ℚ
deriving DecidableEq, Repr

/-- An HSL record (degrees / percent scale, JavaScript numbers as `ℚ`). -/
structure HSL where
  h : ℚ
  s : ℚ
  l : ℚ
deriving DecidableEq, Repr

/-- `ColorConverter.hexToRgb` (src/core/src/utils/colorConverter.ts): strip an
optional leading `#`, then `parseInt` the three 2-character substrings.  A
`NaN` in any channel is modelled as `none`. -/
def hexToRgb (hex : String) : Option RGB :=
  let normalized : List Char :=
    match hex.data with
    | '#' :: rest => rest
    | l => l
  match parseJsHexInt (normalized.take 2),
        parseJsHexInt ((normalized.drop 2).take 2),
        parseJsHexInt ((normalized.drop 4).take 2) with
  | some r, some g, some b => some ⟨(r : ℚ), (g : ℚ), (b : ℚ)⟩
  | _, _, _ => none

/-- Two lowercase hex digits of a value `0 ≤ n ≤ 255`
(`n.toString(16).padStart(2, '0')` for such `n`). -/
def toHex2 (n : ℕ) : List Char := [hexDigitChar (n / 16 % 16), hexDigitChar (n % 16)]

/-- `ColorConverter.rgbToHex` (src/core/src/utils/colorConverter.ts): per
channel `Math.max(0, Math.min(255, Math.round(x)))`, then two lowercase hex
digits, prefixed with `#`. -/
def rgbToHex (r g b : ℚ) : String :=
  ⟨'#' :: (toHex2 (clamp255 (jsRound r)).toNat ++
           toHex2 (clamp255 (jsRound g)).toNat ++
           toHex2 (clamp255 (jsRound b)).toNat)⟩

/-- `ColorConverter.rgbToHsl` (src/core/src/utils/colorConverter.ts): the
standard RGB→HSL formula.  The `switch (max)` statement matches `case r`
first, so ties are resolved in favour of the red channel, then green. -/
def rgbToHsl (c : RGB) : HSL :=
  let r := c.r / 255
  let g := c.g / 255
  let b := c.b / 255
  let maxv := max r (max g b)
  let minv := min r (min g b)
  let l := (maxv + minv) / 2
  if maxv = minv then ⟨0 * 360, 0 * 100, l * 100⟩
  else
    let d := maxv - minv
    let s := if l > 1/2 then d / (2 - maxv - minv) else d / (maxv + minv)
    let h :=
      if maxv = r then (g - b) / d + (if g < b then 6 else 0)
      else if maxv = g then (b - r) / d + 2
      else (r - g) / d + 4
    ⟨h / 6 * 360, s * 100, l * 100⟩

/-- The `hue2rgb` helper of `ColorConverter.hslToHex`: the two wrap `if`s are
applied in sequence, then the four-way branch on `t`. -/
def hue2rgb (p q t : ℚ) : ℚ :=
  let t1 := if t < 0 then t + 1 else t
  let t2 := if t1 > 1 then t1 - 1 else t1
  if t2 < 1/6 then p + (q - p) * 6 * t2
  else if t2 < 1/2 then q
  else if t2 < 2/3 then p + (q - p) * (2/3 - t2) * 6
  else p

/-- Body of `ColorConverter.hslToHex` after its initial `/360`, `/100`,
`/100` normalisation of the three fields: grayscale shortcut when saturation
is exactly 0, otherwise the `p`/`q` hue-to-RGB reconstruction; each channel
is rounded and hex-encoded via `rgbToHex`. -/
def hslToHexCore (h s l : ℚ) : String :=
  let rgb : ℚ × ℚ × ℚ :=
    if s = 0 then (l, l, l)
    else
      let q := if l < 1/2 then l * (1 + s) else l + s - l * s
      let p := 2 * l - q
      (hue2rgb p q (h + 1/3), hue2rgb p q h, hue2rgb p q (h - 1/3))
  rgbToHex ((jsRound (rgb.1 * 255) : ℚ)) ((jsRound (rgb.2.1 * 255) : ℚ))
    ((jsRound (rgb.2.2 * 255) : ℚ))

/-- `ColorConverter.hslToHex` (src/core/src/utils/colorConverter.ts): the
source first rescales `h`, `s`, `l` to `[0,1]` and then runs the body,
embedded here as `hslToHexCore`. -/
def hslToHex (c : HSL) : String :=
  hslToHexCore (c.h / 360) (c.s / 100) (c.l / 100)

-- A few concrete sanity checks of the embedding.
example : hexToRgb "#FF0000" = some ⟨255, 0, 0⟩ := by decide
example : hexToRgb "767676" = some ⟨118, 118, 118⟩ := by decide
example : hexToRgb "#zz0000" = none := by decide
example : rgbToHex 255 0 7 = "#ff0007" := by
  norm_num [rgbToHex, jsRound, clamp255]
  decide
example : rgbToHex (601/2) (-2) 7 = "#ff0007" := by
  norm_num [rgbToHex, jsRound, clamp255]
  decide
example : rgbToHsl ⟨255, 0, 0⟩ = ⟨0, 100, 50⟩ := by
  norm_num [rgbToHsl]
example : rgbToHsl ⟨0, 0, 255⟩ = ⟨240, 100, 50⟩ := by
  norm_num [rgbToHsl]
example : hslToHex ⟨240, 100, 50⟩ = "#0000ff" := by
  norm_num [hslToHex, hslToHexCore, hue2rgb, rgbToHex, jsRound, clamp255]
  decide

/-! ### Exact HSL round-trip -/

lemma hue2rgb_ramp_up (p q t : ℚ) (h1 : 0 ≤ t) (h2 : t < 1/6) :
    hue2rgb p q t = p + (q - p) * 6 * t := by
  have hw1 : ¬ t < 0 := by linarith
  unfold hue2rgb
  simp only [if_neg hw1]
  have hw2 : ¬ t > 1 := by linarith
  simp only [if_neg hw2]
  rw [if_pos h2]

lemma hue2rgb_plateau_q (p q t : ℚ) (h1 : 1/6 ≤ t) (h2 : t < 1/2) :
    hue2rgb p q t = q := by
  have hw1 : ¬ t < 0 := by linarith
  unfold hue2rgb
  simp only [if_neg hw1]
  have hw2 : ¬ t > 1 := by linarith
  simp only [if_neg hw2]
  rw [if_neg (by linarith), if_pos h2]

lemma hue2rgb_ramp_down (p q t : ℚ) (h1 : 1/2 ≤ t) (h2 : t < 2/3) :
    hue2rgb p q t = p + (q - p) * (2/3 - t) * 6 := by
  have hw1 : ¬ t < 0 := by linarith
  unfold hue2rgb
  simp only [if_neg hw1]
  have hw2 : ¬ t > 1 := by linarith
  simp only [if_neg hw2]
  rw [if_neg (by linarith), if_neg (by linarith), if_pos h2]

lemma hue2rgb_plateau_p (p q t : ℚ) (h1 : 2/3 ≤ t) (h2 : t ≤ 1) :
    hue2rgb p q t = p := by
  have hw1 : ¬ t < 0 := by linarith
  unfold hue2rgb
  simp only [if_neg hw1]
  have hw2 : ¬ t > 1 := by linarith
  simp only [if_neg hw2]
  rw [if_neg (by linarith), if_neg (by linarith), if_neg (by linarith)]

lemma hue2rgb_add_one (p q t : ℚ) (h1 : -(1/3) ≤ t) (h2 : t < 0) :
    hue2rgb p q t = hue2rgb p q (t + 1) := by
  have ha : ¬ t + 1 < 0 := by linarith
  have hb : ¬ t + 1 > 1 := by linarith
  unfold hue2rgb
  simp only [if_pos h2, if_neg ha, if_neg hb]

lemma hue2rgb_sub_one (p q t : ℚ) (h1 : 1 < t) (h2 : t ≤ 4/3) :
    hue2rgb p q t = hue2rgb p q (t - 1) := by
  have ha : ¬ t < 0 := by linarith
  have hb : t > 1 := h1
  have hc : ¬ t - 1 < 0 := by linarith
  have hd : ¬ t - 1 > 1 := by linarith
  unfold hue2rgb
  simp only [if_neg ha, if_pos hb, if_neg hc, if_neg hd]

/-- Exact hue reconstruction: feeding the piecewise hue of `rgbToHsl` back
into `hue2rgb` with `p = min`, `q = max` recovers each channel exactly. -/
lemma hue_reconstruct (x y z M m hraw : ℚ)
    (hM : M = max x (max y z)) (hm : m = min x (min y z)) (hne : m ≠ M)
    (hh : hraw = if M = x then (y - z) / (M - m) + (if y < z then 6 else 0)
          else if M = y then (z - x) / (M - m) + 2
          else (x - y) / (M - m) + 4) :
    hue2rgb m M (hraw / 6 + 1/3) = x ∧ hue2rgb m M (hraw / 6) = y ∧
      hue2rgb m M (hraw / 6 - 1/3) = z := by
  have hxM : x ≤ M := by rw [hM]; exact le_max_left _ _
  have hyM : y ≤ M := by rw [hM]; exact le_trans (le_max_left _ _) (le_max_right _ _)
  have hzM : z ≤ M := by rw [hM]; exact le_trans (le_max_right _ _) (le_max_right _ _)
  have hmx : m ≤ x := by rw [hm]; exact min_le_left _ _
  have hmy : m ≤ y := by rw [hm]; exact le_trans (min_le_right _ _) (min_le_left _ _)
  have hmz : m ≤ z := by rw [hm]; exact le_trans (min_le_right _ _) (min_le_right _ _)
  have hmM : m < M := lt_of_le_of_ne (le_trans hmx hxM) hne
  have hd : (0:ℚ) < M - m := by linarith
  have hd0 : M - m ≠ 0 := ne_of_gt hd
  rcases eq_or_ne M x with hMx | hMx
  · rw [if_pos hMx] at hh
    by_cases hyz : y < z
    · -- max = r, g < b : hue in [5/6, 1)
      rw [if_pos hyz] at hh
      have hmyy : m = y := by
        have h1 : min y z = y := min_eq_left (le_of_lt hyz)
        have h2 : y ≤ x := hMx ▸ hyM
        rw [hm, h1, min_eq_right h2]
      subst hh
      have ht0 : (y - z) / (M - m) < 0 :=
        div_neg_of_neg_of_pos (by linarith) hd
      have ht1 : -1 ≤ (y - z) / (M - m) := by
        rw [le_div_iff₀ hd]
        have : z ≤ x := hMx ▸ hzM
        linarith
      refine ⟨?_, ?_, ?_⟩
      · -- red channel: wrap down into the q plateau
        rw [hue2rgb_sub_one m M _ (by linarith) (by linarith),
          hue2rgb_plateau_q m M _ (by linarith) (by linarith)]
        linarith [hMx.symm.le, hMx.le]
      · -- green channel: the p plateau
        rw [hue2rgb_plateau_p m M _ (by linarith) (by linarith)]
        linarith
      · -- blue channel: descending ramp
        rw [hue2rgb_ramp_down m M _ (by linarith) (by linarith)]
        have hcancel : (y - z) / (M - m) * (M - m) = y - z :=
          div_mul_cancel₀ _ hd0
        have hexp : m + (M - m) * (2/3 - (((y - z)/(M - m) + 6)/6 - 1/3)) * 6
            = m - ((y - z)/(M - m)) * (M - m) := by ring
        calc m + (M - m) * (2/3 - (((y - z)/(M - m) + 6)/6 - 1/3)) * 6
            = m - ((y - z)/(M - m)) * (M - m) := hexp
          _ = z := by rw [hcancel]; linarith
    · -- max = r, g ≥ b : hue in [0, 1/6]
      rw [if_neg hyz] at hh
      have hzy : z ≤ y := le_of_not_lt hyz
      have hmzz : m = z := by
        have h1 : min y z = z := min_eq_right hzy
        have h2 : z ≤ x := hMx ▸ hzM
        rw [hm, h1, min_eq_right h2]
      subst hh
      have ht0 : 0 ≤ (y - z) / (M - m) := div_nonneg (by linarith) hd.le
      have ht1 : (y - z) / (M - m) ≤ 1 := by
        rw [div_le_one hd]; linarith
      have hcancel : (y - z) / (M - m) * (M - m) = y - z :=
        div_mul_cancel₀ _ hd0
      refine ⟨?_, ?_, ?_⟩
      · rcases eq_or_lt_of_le ht1 with hteq | htlt
        · rw [hue2rgb_ramp_down m M _ (by linarith) (by linarith), hteq]
          ring_nf
          linarith
        · rw [hue2rgb_plateau_q m M _ (by linarith) (by linarith)]
          linarith
      · rcases eq_or_lt_of_le ht1 with hteq | htlt
        · rw [hue2rgb_plateau_q m M _ (by linarith) (by linarith)]
          have : y - z = M - m := by
            rw [← hcancel, hteq]; ring
          linarith
        · rw [hue2rgb_ramp_up m M _ (by linarith) (by linarith)]
          calc m + (M - m) * 6 * (((y - z)/(M - m) + 0)/6)
              = m + (y - z)/(M - m) * (M - m) := by ring
            _ = y := by rw [hcancel]; linarith
      · rw [hue2rgb_add_one m M _ (by linarith) (by linarith),
          hue2rgb_plateau_p m M _ (by linarith) (by linarith)]
        linarith
  · rw [if_neg hMx] at hh
    rcases eq_or_ne M y with hMy | hMy
    · rw [if_pos hMy] at hh
      subst hh
      have hxltM : x < M := lt_of_le_of_ne hxM (Ne.symm hMx)
      have hzy : z ≤ y := hMy ▸ hzM
      have hmin : m = min x z := by rw [hm, min_eq_right hzy]
      have ht1 : (z - x) / (M - m) ≤ 1 := by
        rw [div_le_one hd]; linarith
      have htm1 : -1 < (z - x) / (M - m) := by
        rw [lt_div_iff₀ hd]; linarith
      have hcancel : (z - x) / (M - m) * (M - m) = z - x :=
        div_mul_cancel₀ _ hd0
      refine ⟨?_, ?_, ?_⟩
      · rcases lt_or_le z x with hzx | hxz
        · have hmz2 : m = z := by rw [hmin, min_eq_right hzx.le]
          have htneg : (z - x) / (M - m) < 0 :=
            div_neg_of_neg_of_pos (by linarith) hd
          rw [hue2rgb_ramp_down m M _ (by linarith) (by linarith)]
          calc m + (M - m) * (2/3 - (((z - x)/(M - m) + 2)/6 + 1/3)) * 6
              = m - (z - x)/(M - m) * (M - m) := by ring
            _ = x := by rw [hcancel]; linarith
        · have hmx2 : m = x := by rw [hmin, min_eq_left hxz]
          have htpos : 0 ≤ (z - x) / (M - m) := div_nonneg (by linarith) hd.le
          rw [hue2rgb_plateau_p m M _ (by linarith) (by linarith)]
          linarith
      · rcases eq_or_lt_of_le ht1 with hteq | htlt
        · rw [hue2rgb_ramp_down m M _ (by linarith) (by linarith), hteq]
          ring_nf
          linarith
        · rw [hue2rgb_plateau_q m M _ (by linarith) (by linarith)]
          linarith
      · rcases lt_or_le z x with hzx | hxz
        · have hmz2 : m = z := by rw [hmin, min_eq_right hzx.le]
          have htneg : (z - x) / (M - m) < 0 :=
            div_neg_of_neg_of_pos (by linarith) hd
          rw [hue2rgb_add_one m M _ (by linarith) (by linarith),
            hue2rgb_plateau_p m M _ (by linarith) (by linarith)]
          linarith
        · have hmx2 : m = x := by rw [hmin, min_eq_left hxz]
          have htpos : 0 ≤ (z - x) / (M - m) := div_nonneg (by linarith) hd.le
          rcases eq_or_lt_of_le ht1 with hteq | htlt
          · rw [hue2rgb_plateau_q m M _ (by linarith) (by linarith)]
            have : z - x = M - m := by rw [← hcancel, hteq]; ring
            linarith
          · rw [hue2rgb_ramp_up m M _ (by linarith) (by linarith)]
            calc m + (M - m) * 6 * (((z - x)/(M - m) + 2)/6 - 1/3)
                = m + (z - x)/(M - m) * (M - m) := by ring
              _ = z := by rw [hcancel]; linarith
    · rw [if_neg hMy] at hh
      subst hh
      have hMz : M = z := by
        rcases max_choice x (max y z) with h1 | h1
        · exact absurd (hM.trans h1) hMx
        · rcases max_choice y z with h2 | h2
          · exact absurd (hM.trans (h1.trans h2)) hMy
          · exact hM.trans (h1.trans h2)
      have hxltM : x < M := lt_of_le_of_ne hxM (Ne.symm hMx)
      have hyltM : y < M := lt_of_le_of_ne hyM (Ne.symm hMy)
      have hyz2 : y ≤ z := hMz ▸ hyM
      have hmin : m = min x y := by rw [hm, min_eq_left hyz2]
      have ht1 : (x - y) / (M - m) < 1 := by
        rw [div_lt_one hd]; linarith
      have htm1 : -1 < (x - y) / (M - m) := by
        rw [lt_div_iff₀ hd]; linarith
      have hcancel : (x - y) / (M - m) * (M - m) = x - y :=
        div_mul_cancel₀ _ hd0
      refine ⟨?_, ?_, ?_⟩
      · rcases lt_or_le y x with hyx | hxy
        · have hmy2 : m = y := by rw [hmin, min_eq_right hyx.le]
          have htpos : 0 < (x - y) / (M - m) := div_pos (by linarith) hd
          rw [hue2rgb_sub_one m M _ (by linarith) (by linarith),
            hue2rgb_ramp_up m M _ (by linarith) (by linarith)]
          calc m + (M - m) * 6 * (((x - y)/(M - m) + 4)/6 + 1/3 - 1)
              = m + (x - y)/(M - m) * (M - m) := by ring
            _ = x := by rw [hcancel]; linarith
        · have hmx2 : m = x := by rw [hmin, min_eq_left hxy]
          have htneg : (x - y) / (M - m) ≤ 0 := by
            apply div_nonpos_of_nonpos_of_nonneg (by linarith) hd.le
          rw [hue2rgb_plateau_p m M _ (by linarith) (by linarith)]
          linarith
      · rcases lt_or_le x y with hxy | hyx
        · have hmx2 : m = x := by rw [hmin, min_eq_left hxy.le]
          have htneg : (x - y) / (M - m) < 0 :=
            div_neg_of_neg_of_pos (by linarith) hd
          rw [hue2rgb_ramp_down m M _ (by linarith) (by linarith)]
          calc m + (M - m) * (2/3 - ((x - y)/(M - m) + 4)/6) * 6
              = m - (x - y)/(M - m) * (M - m) := by ring
            _ = y := by rw [hcancel]; linarith
        · have hmy2 : m = y := by rw [hmin, min_eq_right hyx]
          have htpos : 0 ≤ (x - y) / (M - m) := div_nonneg (by linarith) hd.le
          rw [hue2rgb_plateau_p m M _ (by linarith) (by linarith)]
          linarith
      · rw [hue2rgb_plateau_q m M _ (by linarith) (by linarith)]
        linarith [hMz.le, hMz.symm.le]

lemma jsRound_intCast (n : ℤ) : jsRound ((n : ℚ)) = n := by
  unfold jsRound
  rw [add_comm, Int.floor_add_int]
  norm_num

/-- `rgbToHex` applied to already-rounded integer channels is `rgbToHex` of
the original rationals. -/
lemma rgbToHex_round_absorb (a b c : ℚ) :
    rgbToHex ((jsRound a : ℚ)) ((jsRound b : ℚ)) ((jsRound c : ℚ)) =
      rgbToHex a b c := by
  unfold rgbToHex
  rw [jsRound_intCast, jsRound_intCast, jsRound_intCast]

/-- In the non-degenerate branch, the `q` computed by `hslToHex` from the
lightness/saturation emitted by `rgbToHsl` is exactly the channel maximum. -/
lemma hsl_q_eq (M m s : ℚ) (hmM : m < M) (h0 : 0 ≤ m) (h1 : M ≤ 1)
    (hs : s = if (M + m)/2 > 1/2 then (M - m)/(2 - M - m)
          else (M - m)/(M + m)) :
    (if (M + m)/2 < 1/2 then (M + m)/2 * (1 + s)
      else (M + m)/2 + s - (M + m)/2 * s) = M := by
  have hM0 : 0 < M := lt_of_le_of_lt h0 hmM
  have hMm : 0 < M + m := by linarith
  have h2Mm : 0 < 2 - M - m := by linarith
  by_cases hgt : (M + m)/2 > 1/2
  · rw [if_pos hgt] at hs
    subst hs
    rw [if_neg (show ¬ (M + m)/2 < 1/2 by linarith)]
    field_simp
    ring
  · rw [if_neg hgt] at hs
    subst hs
    by_cases hlt : (M + m)/2 < 1/2
    · rw [if_pos hlt]
      field_simp
      ring
    · rw [if_neg hlt]
      have hsum : M + m = 1 := by
        have := not_lt.mp hgt
        have := not_lt.mp hlt
        linarith
      rw [hsum]
      norm_num
      linarith

/-- Converting an in-range RGB triple to HSL and back yields exactly the
canonical hex encoding of the (rounded) original channels: in exact rational
arithmetic the HSL round-trip loses nothing. -/
theorem hslToHex_rgbToHsl (r g b : ℚ)
    (hr0 : 0 ≤ r) (hr1 : r ≤ 255) (hg0 : 0 ≤ g) (hg1 : g ≤ 255)
    (hb0 : 0 ≤ b) (hb1 : b ≤ 255) :
    hslToHex (rgbToHsl ⟨r, g, b⟩) = rgbToHex r g b := by
  have h255 : (255:ℚ) ≠ 0 := by norm_num
  simp only [rgbToHsl]
  set M := max (r/255) (max (g/255) (b/255)) with hMdef
  set m := min (r/255) (min (g/255) (b/255)) with hmdef
  set s := if (M + m)/2 > 1/2 then (M - m)/(2 - M - m) else (M - m)/(M + m)
    with hsdef
  set hraw := if M = r/255 then (g/255 - b/255)/(M - m) +
      (if g/255 < b/255 then 6 else 0)
    else if M = g/255 then (b/255 - r/255)/(M - m) + 2
    else (r/255 - g/255)/(M - m) + 4 with hhdef
  by_cases hdeg : M = m
  · rw [if_pos hdeg, hdeg]
    have h1 : m ≤ r/255 := by rw [hmdef]; exact min_le_left _ _
    have h2 : r/255 ≤ M := by rw [hMdef]; exact le_max_left _ _
    rw [hdeg] at h2
    have hxm : r/255 = m := le_antisymm h2 h1
    have h3 : m ≤ g/255 := by
      rw [hmdef]; exact le_trans (min_le_right _ _) (min_le_left _ _)
    have h4 : g/255 ≤ M := by
      rw [hMdef]; exact le_trans (le_max_left _ _) (le_max_right _ _)
    rw [hdeg] at h4
    have hym : g/255 = m := le_antisymm h4 h3
    have h5 : m ≤ b/255 := by
      rw [hmdef]; exact le_trans (min_le_right _ _) (min_le_right _ _)
    have h6 : b/255 ≤ M := by
      rw [hMdef]; exact le_trans (le_max_right _ _) (le_max_right _ _)
    rw [hdeg] at h6
    have hzm : b/255 = m := le_antisymm h6 h5
    have hgr : g = r := by
      have := hym.trans hxm.symm
      linarith
    have hbr : b = r := by
      have := hzm.trans hxm.symm
      linarith
    simp only [hslToHex]
    rw [show (0:ℚ) * 360 / 360 = 0 by norm_num,
      show (0:ℚ) * 100 / 100 = 0 by norm_num,
      show (m + m)/2 * 100 / 100 = (m + m)/2 from
        mul_div_cancel_right₀ _ (by norm_num)]
    simp only [hslToHexCore, if_true]
    have hL : (m + m)/2 * 255 = r := by
      have hmm : (m + m)/2 = r/255 := by rw [← hxm]; ring
      rw [hmm, div_mul_cancel₀ r h255]
    rw [hL, hgr, hbr]
    exact rgbToHex_round_absorb r r r
  · rw [if_neg hdeg]
    simp only [hslToHex]
    rw [show hraw / 6 * 360 / 360 = hraw / 6 from
        mul_div_cancel_right₀ _ (by norm_num),
      show s * 100 / 100 = s from mul_div_cancel_right₀ _ (by norm_num),
      show (M + m)/2 * 100 / 100 = (M + m)/2 from
        mul_div_cancel_right₀ _ (by norm_num)]
    have hm0 : 0 ≤ m := by
      rw [hmdef]
      exact le_min (div_nonneg hr0 (by norm_num))
        (le_min (div_nonneg hg0 (by norm_num)) (div_nonneg hb0 (by norm_num)))
    have hM1 : M ≤ 1 := by
      rw [hMdef]
      refine max_le ?_ (max_le ?_ ?_) <;>
        rw [div_le_one (by norm_num : (0:ℚ) < 255)] <;> assumption
    have hmle : m ≤ M := by
      rw [hmdef, hMdef]
      exact le_trans (min_le_left _ _) (le_max_left _ _)
    have hmM : m < M := lt_of_le_of_ne hmle (Ne.symm hdeg)
    have hspos : 0 < s := by
      rw [hsdef]
      split_ifs with hgl
      · exact div_pos (by linarith) (by nlinarith [hmM, hM1, hm0])
      · exact div_pos (by linarith) (by nlinarith [hmM, hm0])
    simp only [hslToHexCore]
    rw [if_neg (ne_of_gt hspos)]
    rw [hsl_q_eq M m s hmM hm0 hM1 hsdef]
    rw [show 2 * ((M + m)/2) - M = m by ring]
    obtain ⟨hR, hG, hB⟩ := hue_reconstruct (r/255) (g/255) (b/255) M m hraw
      hMdef hmdef (Ne.symm hdeg) hhdef
    rw [hR, hG, hB]
    rw [div_mul_cancel₀ r h255, div_mul_cancel₀ g h255, div_mul_cancel₀ b h255]
    exact rgbToHex_round_absorb r g b

/-! ### Parsing back what `rgbToHex` emits -/

set_option maxRecDepth 4000 in
lemma parseJsHexInt_toHex2 (n : ℕ) (h : n ≤ 255) :
    parseJsHexInt (toHex2 n) = some (n : ℤ) := by
  have key : ∀ k : Fin 256, parseJsHexInt (toHex2 k.val) = some (k.val : ℤ) := by
    decide
  exact key ⟨n, Nat.lt_succ_of_le h⟩

lemma clamp255_nonneg (n : ℤ) : 0 ≤ clamp255 n := le_max_left _ _

lemma clamp255_le (n : ℤ) : clamp255 n ≤ 255 := by
  unfold clamp255
  rcases le_total 0 (min 255 n) with h | h
  · rw [max_eq_right h]; exact min_le_left _ _
  · rw [max_eq_left h]; norm_num

lemma clamp255_toNat_le (n : ℤ) : (clamp255 n).toNat ≤ 255 := by
  have h := clamp255_le n
  omega

/-- Round-trip at the string level: `hexToRgb` recovers exactly the
clamped-and-rounded channels emitted by `rgbToHex`. -/
lemma hexToRgb_rgbToHex_raw (r g b : ℚ) :
    hexToRgb (rgbToHex r g b) =
      some ⟨((clamp255 (jsRound r) : ℤ) : ℚ), ((clamp255 (jsRound g) : ℤ) : ℚ),
        ((clamp255 (jsRound b) : ℤ) : ℚ)⟩ := by
  unfold hexToRgb rgbToHex
  simp only [toHex2, List.cons_append, List.nil_append]
  simp only [List.take, List.drop]
  rw [show ∀ x : ℕ, [hexDigitChar (x / 16 % 16), hexDigitChar (x % 16)] = toHex2 x
      from fun _ => rfl]
  rw [show ∀ x : ℕ, [hexDigitChar (x / 16 % 16), hexDigitChar (x % 16)] = toHex2 x
      from fun _ => rfl]
  rw [show ∀ x : ℕ, [hexDigitChar (x / 16 % 16), hexDigitChar (x % 16)] = toHex2 x
      from fun _ => rfl]
  rw [parseJsHexInt_toHex2 _ (clamp255_toNat_le _),
    parseJsHexInt_toHex2 _ (clamp255_toNat_le _),
    parseJsHexInt_toHex2 _ (clamp255_toNat_le _)]
  simp only [Option.some.injEq]
  refine RGB.mk.injEq _ _ _ _ _ _ ▸ ⟨?_, ?_, ?_⟩ <;>
    rw [Int.toNat_of_nonneg (clamp255_nonneg _)]

lemma hexDigit_facts (c : Char) (h : isHexDigitChar c = true) :
    c.isWhitespace = false ∧ c ≠ '-' ∧ c ≠ '+' ∧ c ≠ 'x' ∧ c ≠ 'X' ∧
      hexDigitVal c < 16 := by
  unfold isHexDigitChar at h
  split at h
  all_goals first
    | exact ⟨by decide, by decide, by decide, by decide, by decide, by decide⟩
    | exact absurd h (by decide)

lemma parseJsHexInt_pair (c1 c2 : Char) (h1 : isHexDigitChar c1 = true)
    (h2 : isHexDigitChar c2 = true) :
    parseJsHexInt [c1, c2] =
      some ((hexDigitVal c1 * 16 + hexDigitVal c2 : ℕ) : ℤ) := by
  obtain ⟨hw1, hm1, hp1, hx1, hX1, hv1⟩ := hexDigit_facts c1 h1
  obtain ⟨hw2, hm2, hp2, hx2, hX2, hv2⟩ := hexDigit_facts c2 h2
  have hA : ¬(some c1 = some '-' ∨ some c1 = some '+') := by
    rintro (h | h)
    · exact hm1 (Option.some.inj h)
    · exact hp1 (Option.some.inj h)
  have hB : ¬(some c1 = some '0' ∧ (some c2 = some 'x' ∨ some c2 = some 'X')) := by
    rintro ⟨-, h | h⟩
    · exact hx2 (Option.some.inj h)
    · exact hX2 (Option.some.inj h)
  have hneg : (decide (some c1 = some '-')) = false :=
    decide_eq_false (fun h => hm1 (Option.some.inj h))
  simp only [parseJsHexInt, List.dropWhile, hw1, Bool.false_eq_true, if_false,
    List.head?_cons, List.tail_cons]
  rw [if_neg hA]
  simp only [List.head?_cons, List.tail_cons]
  rw [if_neg hB]
  simp only [parseHexDigits, h1, h2, if_true, hneg]
  push_cast
  ring_nf

/-- A hex color made of an optional `#` followed by exactly six hex digits. -/
def validHex6 (s : String) : Bool :=
  let cs : List Char := match s.data with | '#' :: rest => rest | l => l
  cs.length == 6 && cs.all isHexDigitChar

/-- On a valid 6-digit hex string `hexToRgb` succeeds with integer channels
in `[0, 255]`. -/
lemma hexToRgb_valid (s : String) (h : validHex6 s = true) :
    ∃ r g b : ℕ, hexToRgb s = some ⟨(r:ℚ), (g:ℚ), (b:ℚ)⟩ ∧
      r ≤ 255 ∧ g ≤ 255 ∧ b ≤ 255 := by
  unfold validHex6 at h
  unfold hexToRgb
  rcases hcs : (match s.data with | '#' :: rest => rest | l => l) with
    _ | ⟨a1, _ | ⟨a2, _ | ⟨a3, _ | ⟨a4, _ | ⟨a5, _ | ⟨a6, rest⟩⟩⟩⟩⟩⟩ <;>
    rw [hcs] at h <;> simp only [List.length, List.all, Bool.and_eq_true,
      beq_iff_eq] at h
  · omega
  · omega
  · omega
  · omega
  · omega
  · omega
  · -- six or more characters: the length equation forces `rest = []`
    obtain ⟨hlen, hall⟩ := h
    have hrest : rest = [] := List.eq_nil_of_length_eq_zero (by omega)
    subst hrest
    simp only [List.all_cons, List.all_nil, Bool.and_eq_true, Bool.and_true,
      and_true] at hall
    obtain ⟨h1, h2, h3, h4, h5, h6⟩ := hall
    rw [hcs]
    refine ⟨hexDigitVal a1 * 16 + hexDigitVal a2,
      hexDigitVal a3 * 16 + hexDigitVal a4,
      hexDigitVal a5 * 16 + hexDigitVal a6, ?_, ?_, ?_, ?_⟩
    · simp only [List.take, List.drop]
      rw [parseJsHexInt_pair a1 a2 h1 h2, parseJsHexInt_pair a3 a4 h3 h4,
        parseJsHexInt_pair a5 a6 h5 h6]
      norm_num
    · have := (hexDigit_facts a1 h1).2.2.2.2.2
      have := (hexDigit_facts a2 h2).2.2.2.2.2
      omega
    · have := (hexDigit_facts a3 h3).2.2.2.2.2
      have := (hexDigit_facts a4 h4).2.2.2.2.2
      omega
    · have := (hexDigit_facts a5 h5).2.2.2.2.2
      have := (hexDigit_facts a6 h6).2.2.2.2.2
      omega

lemma jsRound_mono {x y : ℚ} (h : x ≤ y) : jsRound x ≤ jsRound y :=
  Int.floor_le_floor (by linarith)

lemma jsRound_zero : jsRound 0 = 0 := by
  unfold jsRound
  norm_num

lemma jsRound_255 : jsRound 255 = 255 := by
  unfold jsRound
  norm_num

/-- Rounding then clamping agrees with clamping then rounding. -/
lemma clamp255_jsRound_comm (x : ℚ) :
    clamp255 (jsRound x) = jsRound (max 0 (min 255 x)) := by
  unfold clamp255
  rcases le_total x 0 with hx | hx
  · have h1 : min 255 x = x := min_eq_right (by linarith)
    have h2 : max (0:ℚ) x = 0 := max_eq_left hx
    rw [h1, h2, jsRound_zero]
    have h3 : jsRound x ≤ 0 := jsRound_zero ▸ jsRound_mono hx
    omega
  · rcases le_total x 255 with hx2 | hx2
    · have h1 : min 255 x = x := min_eq_right hx2
      have h2 : max (0:ℚ) x = x := max_eq_right hx
      rw [h1, h2]
      have h3 : 0 ≤ jsRound x := jsRound_zero ▸ jsRound_mono hx
      have h4 : jsRound x ≤ 255 := jsRound_255 ▸ jsRound_mono hx2
      omega
    · have h1 : min 255 x = 255 := min_eq_left hx2
      rw [h1, max_eq_right (by norm_num : (0:ℚ) ≤ 255), jsRound_255]
      have h3 : 255 ≤ jsRound x := jsRound_255 ▸ jsRound_mono hx2
      omega

lemma jsRound_natCast (n : ℕ) : jsRound ((n : ℕ) : ℚ) = (n : ℤ) := by
  rw [show ((n:ℕ):ℚ) = ((n:ℤ):ℚ) by push_cast; ring]
  exact jsRound_intCast _

/-- C3 (round-trip through hex): `hexToRgb ∘ rgbToHex` clamps each channel
to `[0,255]` and rounds it. -/
theorem hexToRgb_rgbToHex (r g b : ℚ) :
    hexToRgb (rgbToHex r g b) =
      some ⟨((jsRound (max 0 (min 255 r)) : ℤ) : ℚ),
            ((jsRound (max 0 (min 255 g)) : ℤ) : ℚ),
            ((jsRound (max 0 (min 255 b)) : ℤ) : ℚ)⟩ := by
  rw [hexToRgb_rgbToHex_raw, clamp255_jsRound_comm, clamp255_jsRound_comm,
    clamp255_jsRound_comm]

/-- C4: the full hex → HSL → hex round-trip reproduces every valid hex color
within ±1 per channel (in exact arithmetic it is lossless). -/
theorem hsl_hex_roundtrip (hex : String) (h : validHex6 hex = true) :
    ∃ c c' : RGB, hexToRgb hex = some c ∧
      hexToRgb (hslToHex (rgbToHsl c)) = some c' ∧
      |c'.r - c.r| ≤ 1 ∧ |c'.g - c.g| ≤ 1 ∧ |c'.b - c.b| ≤ 1 := by
  obtain ⟨r, g, b, hparse, hr, hg, hb⟩ := hexToRgb_valid hex h
  refine ⟨⟨(r:ℚ), (g:ℚ), (b:ℚ)⟩, ⟨(r:ℚ), (g:ℚ), (b:ℚ)⟩, hparse, ?_,
    by norm_num, by norm_num, by norm_num⟩
  rw [hslToHex_rgbToHsl (r:ℚ) (g:ℚ) (b:ℚ) (Nat.cast_nonneg r)
      (by exact_mod_cast hr) (Nat.cast_nonneg g) (by exact_mod_cast hg)
      (Nat.cast_nonneg b) (by exact_mod_cast hb),
    hexToRgb_rgbToHex_raw]
  have habsorb : ∀ n : ℕ, n ≤ 255 → clamp255 (jsRound ((n:ℕ):ℚ)) = (n:ℤ) := by
    intro n hn
    rw [jsRound_natCast]
    unfold clamp255
    omega
  rw [habsorb r hr, habsorb g hg, habsorb b hb]
  norm_num

/-! ### Lightness of generated shades -/

lemma hue2rgb_bounds (p q t : ℚ) (hpq : p ≤ q) (h1 : -(1/3) ≤ t)
    (h2 : t ≤ 4/3) : p ≤ hue2rgb p q t ∧ hue2rgb p q t ≤ q := by
  unfold hue2rgb
  dsimp only
  split_ifs <;> constructor <;> nlinarith

lemma hue2rgb_attains_q (p q h : ℚ) (h0 : 0 ≤ h) (h1 : h < 1) :
    hue2rgb p q (h + 1/3) = q ∨ hue2rgb p q h = q ∨
      hue2rgb p q (h - 1/3) = q := by
  rcases lt_or_le h (1/6) with hc | hc
  · exact Or.inl (hue2rgb_plateau_q _ _ _ (by linarith) (by linarith))
  rcases lt_or_le h (1/2) with hc2 | hc2
  · exact Or.inr (Or.inl (hue2rgb_plateau_q _ _ _ (by linarith) (by linarith)))
  rcases lt_or_le h (5/6) with hc3 | hc3
  · exact Or.inr (Or.inr (hue2rgb_plateau_q _ _ _ (by linarith) (by linarith)))
  · refine Or.inl ?_
    rw [hue2rgb_sub_one _ _ _ (by linarith) (by linarith)]
    exact hue2rgb_plateau_q _ _ _ (by linarith) (by linarith)

lemma hue2rgb_attains_p (p q h : ℚ) (h0 : 0 ≤ h) (h1 : h < 1) :
    hue2rgb p q (h + 1/3) = p ∨ hue2rgb p q h = p ∨
      hue2rgb p q (h - 1/3) = p := by
  rcases lt_or_le h (1/3) with hc | hc
  · refine Or.inr (Or.inr ?_)
    rw [hue2rgb_add_one _ _ _ (by linarith) (by linarith)]
    exact hue2rgb_plateau_p _ _ _ (by linarith) (by linarith)
  rcases eq_or_lt_of_le hc with hc1 | hc1
  · refine Or.inr (Or.inr ?_)
    rw [hue2rgb_ramp_up _ _ _ (by linarith) (by linarith)]
    rw [← hc1]
    ring
  rcases lt_or_le h (2/3) with hc2 | hc2
  · exact Or.inl (hue2rgb_plateau_p _ _ _ (by linarith) (by linarith))
  rcases eq_or_lt_of_le hc2 with hc3 | hc3
  · exact Or.inl (hue2rgb_plateau_p _ _ _ (by linarith) (by linarith))
  · exact Or.inr (Or.inl (hue2rgb_plateau_p _ _ _ (by linarith) (by linarith)))

/-- The lightness (in percent) that `rgbToHsl` assigns to a parsed hex
color; `none` when parsing fails. -/
def hslLightness (hex : String) : Option ℚ :=
  (hexToRgb hex).map fun c => (rgbToHsl c).l

lemma rgbToHsl_l_eq (c : RGB) :
    (rgbToHsl c).l =
      (max (c.r/255) (max (c.g/255) (c.b/255)) +
        min (c.r/255) (min (c.g/255) (c.b/255))) / 2 * 100 := by
  unfold rgbToHsl
  dsimp only
  split_ifs <;> rfl

lemma jsRound_lb (x : ℚ) : x - 1/2 < (jsRound x : ℚ) := by
  unfold jsRound
  have := Int.sub_one_lt_floor (x + 1/2)
  linarith

lemma jsRound_ub (x : ℚ) : (jsRound x : ℚ) ≤ x + 1/2 := by
  unfold jsRound
  have := Int.floor_le (x + 1/2)
  linarith

lemma max3_eq {A B C Q : ℤ} (hA : A ≤ Q) (hB : B ≤ Q) (hC : C ≤ Q)
    (hor : A = Q ∨ B = Q ∨ C = Q) : max A (max B C) = Q := by
  rcases hor with h | h | h <;> subst h <;> omega

lemma min3_eq {A B C P : ℤ} (hA : P ≤ A) (hB : P ≤ B) (hC : P ≤ C)
    (hor : A = P ∨ B = P ∨ C = P) : min A (min B C) = P := by
  rcases hor with h | h | h <;> subst h <;> omega

lemma pq_facts (s l : ℚ) (hs0 : 0 ≤ s) (hs1 : s ≤ 1) (hl0 : 0 ≤ l)
    (hl1 : l ≤ 1) :
    0 ≤ 2 * l - (if l < 1/2 then l * (1 + s) else l + s - l * s) ∧
      2 * l - (if l < 1/2 then l * (1 + s) else l + s - l * s) ≤
        (if l < 1/2 then l * (1 + s) else l + s - l * s) ∧
      (if l < 1/2 then l * (1 + s) else l + s - l * s) ≤ 1 := by
  split_ifs with h <;> refine ⟨?_, ?_, ?_⟩ <;> nlinarith

set_option maxHeartbeats 1000000 in
/-- The HSL lightness read back from a shade emitted by `hslToHexCore` is
within `100/510` of the requested lightness. -/
lemma hslLightness_core (h s l : ℚ) (hh0 : 0 ≤ h) (hh1 : h < 1)
    (hs0 : 0 ≤ s) (hs1 : s ≤ 1) (hl0 : 0 ≤ l) (hl1 : l ≤ 1) :
    ∃ lv : ℚ, hslLightness (hslToHexCore h s l) = some lv ∧
      |lv - l * 100| ≤ 100/510 := by
  by_cases hsz : s = 0
  · subst hsz
    unfold hslToHexCore
    rw [if_pos rfl]
    unfold hslLightness
    dsimp only
    rw [hexToRgb_rgbToHex_raw]
    rw [jsRound_intCast]
    have h1 : 0 ≤ jsRound (l * 255) := jsRound_zero ▸ jsRound_mono (by nlinarith)
    have h2 : jsRound (l * 255) ≤ 255 := jsRound_255 ▸ jsRound_mono (by nlinarith)
    have hc : clamp255 (jsRound (l * 255)) = jsRound (l * 255) := by
      unfold clamp255
      omega
    rw [hc]
    refine ⟨_, rfl, ?_⟩
    dsimp only
    rw [rgbToHsl_l_eq]
    simp only [max_self, min_self]
    have hlb := jsRound_lb (l * 255)
    have hub := jsRound_ub (l * 255)
    rw [abs_le]
    constructor <;> nlinarith
  · unfold hslToHexCore
    rw [if_neg hsz]
    dsimp only
    set Q : ℚ := if l < 1/2 then l * (1 + s) else l + s - l * s with hQdef
    obtain ⟨hP0, hPQ, hQ1⟩ := hQdef ▸ pq_facts s l hs0 hs1 hl0 hl1
    set c1 : ℚ := hue2rgb (2 * l - Q) Q (h + 1/3) with hc1def
    set c2 : ℚ := hue2rgb (2 * l - Q) Q h with hc2def
    set c3 : ℚ := hue2rgb (2 * l - Q) Q (h - 1/3) with hc3def
    obtain ⟨hb1l, hb1u⟩ := hc1def ▸
      hue2rgb_bounds (2 * l - Q) Q (h + 1/3) hPQ (by linarith) (by linarith)
    obtain ⟨hb2l, hb2u⟩ := hc2def ▸
      hue2rgb_bounds (2 * l - Q) Q h hPQ (by linarith) (by linarith)
    obtain ⟨hb3l, hb3u⟩ := hc3def ▸
      hue2rgb_bounds (2 * l - Q) Q (h - 1/3) hPQ (by linarith) (by linarith)
    unfold hslLightness
    rw [hexToRgb_rgbToHex_raw]
    rw [jsRound_intCast, jsRound_intCast, jsRound_intCast]
    have hr1 : 0 ≤ jsRound (c1 * 255) := jsRound_zero ▸ jsRound_mono (by nlinarith)
    have hr1u : jsRound (c1 * 255) ≤ 255 := jsRound_255 ▸ jsRound_mono (by nlinarith)
    have hr2 : 0 ≤ jsRound (c2 * 255) := jsRound_zero ▸ jsRound_mono (by nlinarith)
    have hr2u : jsRound (c2 * 255) ≤ 255 := jsRound_255 ▸ jsRound_mono (by nlinarith)
    have hr3 : 0 ≤ jsRound (c3 * 255) := jsRound_zero ▸ jsRound_mono (by nlinarith)
    have hr3u : jsRound (c3 * 255) ≤ 255 := jsRound_255 ▸ jsRound_mono (by nlinarith)
    rw [show clamp255 (jsRound (c1 * 255)) = jsRound (c1 * 255) from by
        unfold clamp255; omega,
      show clamp255 (jsRound (c2 * 255)) = jsRound (c2 * 255) from by
        unfold clamp255; omega,
      show clamp255 (jsRound (c3 * 255)) = jsRound (c3 * 255) from by
        unfold clamp255; omega]
    refine ⟨_, rfl, ?_⟩
    dsimp only
    rw [rgbToHsl_l_eq]
    have hmax : max ((jsRound (c1 * 255) : ℚ)/255)
        (max ((jsRound (c2 * 255) : ℚ)/255) ((jsRound (c3 * 255) : ℚ)/255)) =
        ((jsRound (Q * 255) : ℚ))/255 := by
      rw [max_div_div_right (by norm_num : (0:ℚ) ≤ 255),
        max_div_div_right (by norm_num : (0:ℚ) ≤ 255)]
      congr 1
      rw [← Int.cast_max, ← Int.cast_max]
      congr 1
      refine max3_eq (jsRound_mono (by nlinarith)) (jsRound_mono (by nlinarith))
        (jsRound_mono (by nlinarith)) ?_
      rcases hue2rgb_attains_q (2 * l - Q) Q h hh0 hh1 with he | he | he
      · exact Or.inl (by rw [← hc1def] at he; rw [he])
      · exact Or.inr (Or.inl (by rw [← hc2def] at he; rw [he]))
      · exact Or.inr (Or.inr (by rw [← hc3def] at he; rw [he]))
    have hmin : min ((jsRound (c1 * 255) : ℚ)/255)
        (min ((jsRound (c2 * 255) : ℚ)/255) ((jsRound (c3 * 255) : ℚ)/255)) =
        ((jsRound ((2 * l - Q) * 255) : ℚ))/255 := by
      rw [min_div_div_right (by norm_num : (0:ℚ) ≤ 255),
        min_div_div_right (by norm_num : (0:ℚ) ≤ 255)]
      congr 1
      rw [← Int.cast_min, ← Int.cast_min]
      congr 1
      refine min3_eq (jsRound_mono (by nlinarith)) (jsRound_mono (by nlinarith))
        (jsRound_mono (by nlinarith)) ?_
      rcases hue2rgb_attains_p (2 * l - Q) Q h hh0 hh1 with he | he | he
      · exact Or.inl (by rw [← hc1def] at he; rw [he])
      · exact Or.inr (Or.inl (by rw [← hc2def] at he; rw [he]))
      · exact Or.inr (Or.inr (by rw [← hc3def] at he; rw [he]))
    rw [hmax, hmin]
    have hQlb := jsRound_lb (Q * 255)
    have hQub := jsRound_ub (Q * 255)
    have hPlb := jsRound_lb ((2 * l - Q) * 255)
    have hPub := jsRound_ub ((2 * l - Q) * 255)
    rw [abs_le]
    constructor <;> nlinarith

set_option maxHeartbeats 1000000 in
/-- Hue and saturation emitted by `rgbToHsl` rescale into `[0,1)` and
`[0,1]` respectively for in-range channels. -/
lemma rgbToHsl_ranges (c : RGB) (hr0 : 0 ≤ c.r) (hr1 : c.r ≤ 255)
    (hg0 : 0 ≤ c.g) (hg1 : c.g ≤ 255) (hb0 : 0 ≤ c.b) (hb1 : c.b ≤ 255) :
    0 ≤ (rgbToHsl c).h / 360 ∧ (rgbToHsl c).h / 360 < 1 ∧
      0 ≤ (rgbToHsl c).s / 100 ∧ (rgbToHsl c).s / 100 ≤ 1 := by
  obtain ⟨r, g, b⟩ := c
  dsimp only at *
  unfold rgbToHsl
  dsimp only
  set x := r / 255 with hx
  set y := g / 255 with hy
  set z := b / 255 with hz
  have hx0 : 0 ≤ x := div_nonneg hr0 (by norm_num)
  have hy0 : 0 ≤ y := div_nonneg hg0 (by norm_num)
  have hz0 : 0 ≤ z := div_nonneg hb0 (by norm_num)
  have hx1 : x ≤ 1 := by rw [hx, div_le_one (by norm_num : (0:ℚ) < 255)]; exact hr1
  have hy1 : y ≤ 1 := by rw [hy, div_le_one (by norm_num : (0:ℚ) < 255)]; exact hg1
  have hz1 : z ≤ 1 := by rw [hz, div_le_one (by norm_num : (0:ℚ) < 255)]; exact hb1
  set M := max x (max y z) with hM
  set m := min x (min y z) with hm
  have hxM : x ≤ M := le_max_left _ _
  have hyM : y ≤ M := le_trans (le_max_left _ _) (le_max_right _ _)
  have hzM : z ≤ M := le_trans (le_max_right _ _) (le_max_right _ _)
  have hmx : m ≤ x := min_le_left _ _
  have hmy : m ≤ y := le_trans (min_le_right _ _) (min_le_left _ _)
  have hmz : m ≤ z := le_trans (min_le_right _ _) (min_le_right _ _)
  have hm0 : 0 ≤ m := le_min hx0 (le_min hy0 hz0)
  have hM1 : M ≤ 1 := max_le hx1 (max_le hy1 hz1)
  by_cases hdeg : M = m
  · rw [if_pos hdeg]
    norm_num
  · rw [if_neg hdeg]
    have hmM : m < M := lt_of_le_of_ne (le_trans hmx hxM) (Ne.symm hdeg)
    have hd : (0:ℚ) < M - m := by linarith
    dsimp only
    refine ⟨?_, ?_, ?_, ?_⟩
    · -- 0 ≤ h/360
      rw [div_nonneg_iff]
      left
      constructor
      · rw [mul_nonneg_iff_of_pos_right (by norm_num : (0:ℚ) < 360),
          div_nonneg_iff]
        left
        refine ⟨?_, by norm_num⟩
        split_ifs with h1 h2 h3
        · have : -1 ≤ (y - z)/(M - m) := by
            rw [le_div_iff₀ hd]; linarith
          linarith
        · have : 0 ≤ (y - z)/(M - m) := div_nonneg (by linarith) hd.le
          linarith
        · have : -1 ≤ (z - x)/(M - m) := by
            rw [le_div_iff₀ hd]; linarith
          linarith
        · have : -1 ≤ (x - y)/(M - m) := by
            rw [le_div_iff₀ hd]; linarith
          linarith
      · norm_num
    · -- h/360 < 1
      rw [div_lt_one (by norm_num : (0:ℚ) < 360)]
      have h6 : (if M = x then (y - z)/(M - m) + (if y < z then 6 else 0)
          else if M = y then (z - x)/(M - m) + 2
          else (x - y)/(M - m) + 4) < 6 := by
        split_ifs with h1 h2 h3
        · have : (y - z)/(M - m) < 0 :=
            div_neg_of_neg_of_pos (by linarith) hd
          linarith
        · have : (y - z)/(M - m) ≤ 1 := by
            rw [div_le_one hd]; linarith
          linarith
        · have : (z - x)/(M - m) ≤ 1 := by
            rw [div_le_one hd]; linarith
          linarith
        · have : (x - y)/(M - m) ≤ 1 := by
            rw [div_le_one hd]; linarith
          linarith
      nlinarith
    · -- 0 ≤ s/100
      rw [div_nonneg_iff]
      left
      refine ⟨?_, by norm_num⟩
      rw [mul_nonneg_iff_of_pos_right (by norm_num : (0:ℚ) < 100)]
      split_ifs with h1
      · exact div_nonneg (by linarith) (by nlinarith)
      · exact div_nonneg (by linarith) (by nlinarith [lt_of_le_of_lt hm0 hmM])
    · -- s/100 ≤ 1
      rw [div_le_one (by norm_num : (0:ℚ) < 100)]
      have : (if (M + m)/2 > 1/2 then (M - m)/(2 - M - m)
          else (M - m)/(M + m)) ≤ 1 := by
        split_ifs with h1
        · rw [div_le_one (by nlinarith)]
          linarith
        · have hMpos : 0 < M := lt_of_le_of_lt hm0 hmM
          rw [div_le_one (by nlinarith)]
          linarith
      nlinarith

/-- The 10-step shade scale returned by
`ColorDepthGenerator.generateColorDepth` (fields named after the numeric
shade keys 50..900). -/
structure ColorDepth where
  k50 : String
  k100 : String
  k200 : String
  k300 : String
  k400 : String
  k500 : String
  k600 : String
  k700 : String
  k800 : String
  k900 : String
deriving DecidableEq, Repr

/-- `ColorDepthGenerator.generateColorDepth`
(src/core/src/generators/colorDepth.ts): convert to HSL once, re-emit ten
fixed lightness values, with shade 500 set to the original string. -/
def generateColorDepth (baseColor : String) : Option ColorDepth :=
  (hexToRgb baseColor).map fun rgb =>
    let hsl := rgbToHsl rgb
    { k50 := hslToHex ⟨hsl.h, hsl.s, 98⟩
      k100 := hslToHex ⟨hsl.h, hsl.s, 90⟩
      k200 := hslToHex ⟨hsl.h, hsl.s, 80⟩
      k300 := hslToHex ⟨hsl.h, hsl.s, 70⟩
      k400 := hslToHex ⟨hsl.h, hsl.s, 60⟩
      k500 := baseColor
      k600 := hslToHex ⟨hsl.h, hsl.s, 40⟩
      k700 := hslToHex ⟨hsl.h, hsl.s, 30⟩
      k800 := hslToHex ⟨hsl.h, hsl.s, 20⟩
      k900 := hslToHex ⟨hsl.h, hsl.s, 10⟩ }

set_option maxHeartbeats 1000000 in
/-- C2 (amended): shade 500 is the base string verbatim; the read-back
lightness strictly decreases along the non-500 shades; and the full chain
through shade 500 holds whenever the base color's own lightness lies in
`[40.2, 59.8]`. -/
theorem generateColorDepth_shade_lightness (hex : String)
    (hv : validHex6 hex = true) :
    ∃ D : ColorDepth, generateColorDepth hex = some D ∧ D.k500 = hex ∧
      ∃ l50 l100 l200 l300 l400 lbase l600 l700 l800 l900 : ℚ,
        hslLightness D.k50 = some l50 ∧ hslLightness D.k100 = some l100 ∧
        hslLightness D.k200 = some l200 ∧ hslLightness D.k300 = some l300 ∧
        hslLightness D.k400 = some l400 ∧ hslLightness D.k500 = some lbase ∧
        hslLightness D.k600 = some l600 ∧ hslLightness D.k700 = some l700 ∧
        hslLightness D.k800 = some l800 ∧ hslLightness D.k900 = some l900 ∧
        l50 > l100 ∧ l100 > l200 ∧ l200 > l300 ∧ l300 > l400 ∧ l400 > l600 ∧
        l600 > l700 ∧ l700 > l800 ∧ l800 > l900 ∧
        (201/5 ≤ lbase → lbase ≤ 299/5 → l400 > lbase ∧ lbase > l600) := by
  obtain ⟨r, g, b, hparse, hr, hg, hb⟩ := hexToRgb_valid hex hv
  have hcr0 : (0:ℚ) ≤ (r:ℚ) := Nat.cast_nonneg r
  have hcr1 : ((r:ℕ):ℚ) ≤ 255 := by exact_mod_cast hr
  have hcg0 : (0:ℚ) ≤ (g:ℚ) := Nat.cast_nonneg g
  have hcg1 : ((g:ℕ):ℚ) ≤ 255 := by exact_mod_cast hg
  have hcb0 : (0:ℚ) ≤ (b:ℚ) := Nat.cast_nonneg b
  have hcb1 : ((b:ℕ):ℚ) ≤ 255 := by exact_mod_cast hb
  obtain ⟨hh0, hh1, hs0, hs1⟩ :=
    rgbToHsl_ranges ⟨(r:ℚ), (g:ℚ), (b:ℚ)⟩ hcr0 hcr1 hcg0 hcg1 hcb0 hcb1
  refine ⟨_, by rw [generateColorDepth, hparse]; rfl, rfl, ?_⟩
  obtain ⟨l50, he50, hq50⟩ := hslLightness_core
    ((rgbToHsl ⟨(r:ℚ), (g:ℚ), (b:ℚ)⟩).h/360)
    ((rgbToHsl ⟨(r:ℚ), (g:ℚ), (b:ℚ)⟩).s/100) (98/100)
    hh0 hh1 hs0 hs1 (by norm_num) (by norm_num)
  obtain ⟨l100, he100, hq100⟩ := hslLightness_core _ _ (90/100)
    hh0 hh1 hs0 hs1 (by norm_num) (by norm_num)
  obtain ⟨l200, he200, hq200⟩ := hslLightness_core _ _ (80/100)
    hh0 hh1 hs0 hs1 (by norm_num) (by norm_num)
  obtain ⟨l300, he300, hq300⟩ := hslLightness_core _ _ (70/100)
    hh0 hh1 hs0 hs1 (by norm_num) (by norm_num)
  obtain ⟨l400, he400, hq400⟩ := hslLightness_core _ _ (60/100)
    hh0 hh1 hs0 hs1 (by norm_num) (by norm_num)
  obtain ⟨l600, he600, hq600⟩ := hslLightness_core _ _ (40/100)
    hh0 hh1 hs0 hs1 (by norm_num) (by norm_num)
  obtain ⟨l700, he700, hq700⟩ := hslLightness_core _ _ (30/100)
    hh0 hh1 hs0 hs1 (by norm_num) (by norm_num)
  obtain ⟨l800, he800, hq800⟩ := hslLightness_core _ _ (20/100)
    hh0 hh1 hs0 hs1 (by norm_num) (by norm_num)
  obtain ⟨l900, he900, hq900⟩ := hslLightness_core _ _ (10/100)
    hh0 hh1 hs0 hs1 (by norm_num) (by norm_num)
  rw [abs_le] at hq50 hq100 hq200 hq300 hq400 hq600 hq700 hq800 hq900
  refine ⟨l50, l100, l200, l300, l400, (rgbToHsl ⟨(r:ℚ), (g:ℚ), (b:ℚ)⟩).l,
    l600, l700, l800, l900, he50, he100, he200, he300, he400, ?_,
    he600, he700, he800, he900, by linarith, by linarith, by linarith,
    by linarith, by linarith, by linarith, by linarith, by linarith, ?_⟩
  · show hslLightness hex = _
    rw [hslLightness, hparse]
    rfl
  · intro hw1 hw2
    constructor <;> linarith

/-- C2 (counterexample): for base `#000000` the lightness at shade 500 is 0,
strictly below the lightness 40 at shade 600, so the palette's read-back
lightness is not strictly decreasing in the shade key. -/
theorem generateColorDepth_black_not_decreasing :
    ∃ D : ColorDepth, ∃ l5 l6 : ℚ, generateColorDepth "#000000" = some D ∧
      hslLightness D.k500 = some l5 ∧ hslLightness D.k600 = some l6 ∧
      l5 < l6 := by
  have h1 : hexToRgb "#000000" = some ⟨0, 0, 0⟩ := by decide
  have h2 : rgbToHsl ⟨0, 0, 0⟩ = ⟨0, 0, 0⟩ := by
    norm_num [rgbToHsl]
  have h3 : hslToHex ⟨0, 0, 40⟩ = "#666666" := by
    norm_num [hslToHex, hslToHexCore, rgbToHex, jsRound, clamp255]
    decide
  have h4 : hexToRgb "#666666" = some ⟨102, 102, 102⟩ := by decide
  have h5 : hslLightness "#666666" = some 40 := by
    rw [hslLightness, h4]
    norm_num [rgbToHsl_l_eq]
  refine ⟨_, 0, 40, by unfold generateColorDepth; rw [h1]; rfl, ?_, ?_,
    by norm_num⟩
  · show hslLightness "#000000" = some 0
    rw [hslLightness, h1]
    norm_num [rgbToHsl_l_eq]
  · show hslLightness
      (hslToHex ⟨(rgbToHsl ⟨0,0,0⟩).h, (rgbToHsl ⟨0,0,0⟩).s, 40⟩) = some 40
    rw [h2]
    rw [show ((⟨0, 0, 0⟩ : HSL).h) = 0 from rfl, show ((⟨0, 0, 0⟩ : HSL).s) = 0 from rfl]
    rw [h3]
    exact h5

/-! ### Theme values and the deep-merge engine -/

/-- JSON-like runtime values: theme objects are insertion-ordered
association lists, mirroring JavaScript object semantics. -/
inductive JVal where
  | str (s : String)
  | num (q : ℚ)
  | bool (b : Bool)
  | null
  | arr (elems : List JVal)
  | obj (fields : List (String × JVal))

/-- The `isObject` type guard of src/core/src/utils/override.ts: truthy,
`typeof === 'object'`, and not an array — exactly the `obj` constructor
(`null` is falsy, arrays are excluded). -/
def isObjectV : JVal → Bool
  | .obj _ => true
  | _ => false

/-- Property lookup on an object's field list (first match). -/
def getKey : List (String × JVal) → String → Option JVal
  | [], _ => none
  | (k, v) :: rest, key => if k = key then some v else getKey rest key

/-- The `key in target` test. -/
def hasKey (l : List (String × JVal)) (key : String) : Bool :=
  (getKey l key).isSome

/-- `Object.assign(target, {[key]: v})`: overwrite in place if present,
append otherwise. -/
def setKey : List (String × JVal) → String → JVal → List (String × JVal)
  | [], key, v => [(key, v)]
  | (k, w) :: rest, key, v =>
    if k = key then (k, v) :: rest else (k, w) :: setKey rest key v

/-- Field access on a `JVal` when it is an object. -/
def objGet (j : JVal) (key : String) : Option JVal :=
  match j with
  | .obj fields => getKey fields key
  | _ => none

mutual
/-- The `deepMerge` of src/core/src/utils/override.ts, as a function from
the mutated `target` to its final value.  When both arguments are objects
the source's keys are folded into the target in order; otherwise `source`
is returned.  When `source[key]` is an object but the existing
`target[key]` is a non-object, the recursive call's result is discarded by
the original code (its return value is dropped and no mutation happens),
so the target's value survives — `mergeInto` reproduces that. -/
def deepMerge (target source : JVal) : JVal :=
  match target, source with
  | JVal.obj tf, JVal.obj sf => JVal.obj (mergeInto tf sf)
  | _, source => source

/-- One pass of `Object.keys(source).forEach` inside `deepMerge`. -/
def mergeInto (tf : List (String × JVal)) :
    List (String × JVal) → List (String × JVal)
  | [] => tf
  | (k, v) :: rest =>
    match v with
    | JVal.obj vf =>
      let tf1 := if hasKey tf k then tf else tf ++ [(k, JVal.obj [])]
      let tv := (getKey tf1 k).getD (JVal.obj [])
      let newv := if isObjectV tv then deepMerge tv (JVal.obj vf) else tv
      mergeInto (setKey tf1 k newv) rest
    | v => mergeInto (setKey tf k v) rest
end

/-- `mergeTheme` (src/core/src/utils/override.ts) is `deepMerge`. -/
def mergeTheme (base override : JVal) : JVal := deepMerge base override

example :
    mergeTheme (JVal.obj [("a", JVal.num 1)])
      (JVal.obj [("b", JVal.str "x")]) =
    JVal.obj [("a", JVal.num 1), ("b", JVal.str "x")] := by
  simp [mergeTheme, deepMerge, mergeInto, setKey, getKey, hasKey, isObjectV]

lemma getKey_setKey_self (l : List (String × JVal)) (k : String) (v : JVal) :
    getKey (setKey l k v) k = some v := by
  induction l with
  | nil => simp [setKey, getKey]
  | cons p rest ih =>
    obtain ⟨k', w⟩ := p
    by_cases h : k' = k
    · subst h
      simp [setKey, getKey]
    · simp [setKey, getKey, h, ih]

lemma getKey_setKey_other (l : List (String × JVal)) (k k' : String)
    (v : JVal) (h : k ≠ k') : getKey (setKey l k v) k' = getKey l k' := by
  induction l with
  | nil => simp [setKey, getKey, h]
  | cons p rest ih =>
    obtain ⟨k0, w⟩ := p
    by_cases h0 : k0 = k
    · subst h0
      simp [setKey, getKey, h]
    · simp [setKey, getKey, h0, ih]

lemma getKey_append (l1 l2 : List (String × JVal)) (k : String) :
    getKey (l1 ++ l2) k =
      match getKey l1 k with
      | some v => some v
      | none => getKey l2 k := by
  induction l1 with
  | nil => simp [getKey]
  | cons p rest ih =>
    obtain ⟨k0, w⟩ := p
    by_cases h0 : k0 = k
    · subst h0
      simp [getKey]
    · simp [getKey, h0, ih]

/-- Keys that the override never mentions are untouched by `mergeInto`. -/
lemma getKey_mergeInto_not_mem (sf : List (String × JVal))
    (tf : List (String × JVal)) (k : String)
    (h : ∀ p ∈ sf, p.1 ≠ k) :
    getKey (mergeInto tf sf) k = getKey tf k := by
  induction sf generalizing tf with
  | nil => simp [mergeInto]
  | cons p rest ih =>
    obtain ⟨k', v⟩ := p
    have hk' : k' ≠ k := h (k', v) (by simp)
    have hrest : ∀ p ∈ rest, p.1 ≠ k := fun p hp => h p (by simp [hp])
    match v with
    | JVal.str s =>
      rw [show mergeInto tf ((k', JVal.str s) :: rest) =
        mergeInto (setKey tf k' (JVal.str s)) rest from rfl]
      rw [ih _ hrest, getKey_setKey_other _ _ _ _ hk']
    | JVal.num q =>
      rw [show mergeInto tf ((k', JVal.num q) :: rest) =
        mergeInto (setKey tf k' (JVal.num q)) rest from rfl]
      rw [ih _ hrest, getKey_setKey_other _ _ _ _ hk']
    | JVal.bool b =>
      rw [show mergeInto tf ((k', JVal.bool b) :: rest) =
        mergeInto (setKey tf k' (JVal.bool b)) rest from rfl]
      rw [ih _ hrest, getKey_setKey_other _ _ _ _ hk']
    | JVal.null =>
      rw [show mergeInto tf ((k', JVal.null) :: rest) =
        mergeInto (setKey tf k' JVal.null) rest from rfl]
      rw [ih _ hrest, getKey_setKey_other _ _ _ _ hk']
    | JVal.arr xs =>
      rw [show mergeInto tf ((k', JVal.arr xs) :: rest) =
        mergeInto (setKey tf k' (JVal.arr xs)) rest from rfl]
      rw [ih _ hrest, getKey_setKey_other _ _ _ _ hk']
    | JVal.obj vf =>
      rw [show mergeInto tf ((k', JVal.obj vf) :: rest) =
        mergeInto (setKey
          (if hasKey tf k' then tf else tf ++ [(k', JVal.obj [])]) k'
          (if isObjectV (((getKey
              (if hasKey tf k' then tf else tf ++ [(k', JVal.obj [])])
              k').getD (JVal.obj [])))
            then deepMerge (((getKey
              (if hasKey tf k' then tf else tf ++ [(k', JVal.obj [])])
              k').getD (JVal.obj []))) (JVal.obj vf)
            else (((getKey
              (if hasKey tf k' then tf else tf ++ [(k', JVal.obj [])])
              k').getD (JVal.obj []))))) rest from rfl]
      rw [ih _ hrest, getKey_setKey_other _ _ _ _ hk']
      by_cases htf : hasKey tf k'
      · rw [if_pos htf]
      · rw [if_neg htf, getKey_append]
        have : getKey [(k', JVal.obj [])] k = none := by
          simp [getKey, hk']
        rw [this]
        rcases getKey tf k with _ | w <;> rfl

lemma mergeInto_cons_nonobj (tf : List (String × JVal)) (k : String)
    (v : JVal) (rest : List (String × JVal)) (h : isObjectV v = false) :
    mergeInto tf ((k, v) :: rest) = mergeInto (setKey tf k v) rest := by
  match v with
  | JVal.str s => rfl
  | JVal.num q => rfl
  | JVal.bool b => rfl
  | JVal.null => rfl
  | JVal.arr xs => rfl
  | JVal.obj vf => exact absurd h (by simp [isObjectV])

lemma mergeInto_cons_obj (tf : List (String × JVal)) (k : String)
    (vf : List (String × JVal)) (rest : List (String × JVal)) :
    mergeInto tf ((k, JVal.obj vf) :: rest) =
      mergeInto (setKey
        (if hasKey tf k then tf else tf ++ [(k, JVal.obj [])]) k
        (if isObjectV ((getKey
            (if hasKey tf k then tf else tf ++ [(k, JVal.obj [])])
            k).getD (JVal.obj []))
          then deepMerge ((getKey
            (if hasKey tf k then tf else tf ++ [(k, JVal.obj [])])
            k).getD (JVal.obj [])) (JVal.obj vf)
          else ((getKey
            (if hasKey tf k then tf else tf ++ [(k, JVal.obj [])])
            k).getD (JVal.obj [])))) rest := rfl

lemma getKey_creation (tf : List (String × JVal)) (k : String) :
    getKey (if hasKey tf k then tf else tf ++ [(k, JVal.obj [])]) k =
      some ((getKey tf k).getD (JVal.obj [])) := by
  by_cases h : hasKey tf k
  · rw [if_pos h]
    unfold hasKey at h
    obtain ⟨w, hw⟩ := Option.isSome_iff_exists.mp h
    rw [hw]
    rfl
  · rw [if_neg h]
    unfold hasKey at h
    have hnone : getKey tf k = none := by
      rcases he : getKey tf k with _ | w
      · rfl
      · exact absurd (by rw [he]; rfl) h
    rw [getKey_append, hnone]
    simp [getKey]

/-- The value the merge stores for an override entry `(k, v)`: non-objects
replace outright; objects merge into the existing target value when that is
an object (an absent key counts as a fresh empty object), and are dropped
when the target value is a non-object. -/
def mergedValue (tf : List (String × JVal)) (k : String) (v : JVal) : JVal :=
  match v with
  | JVal.obj vf =>
    if isObjectV ((getKey tf k).getD (JVal.obj []))
      then deepMerge ((getKey tf k).getD (JVal.obj [])) (JVal.obj vf)
      else (getKey tf k).getD (JVal.obj [])
  | w => w

lemma mergedValue_congr (tf1 tf2 : List (String × JVal)) (k : String)
    (v : JVal) (h : getKey tf1 k = getKey tf2 k) :
    mergedValue tf1 k v = mergedValue tf2 k v := by
  cases v <;> simp [mergedValue, h]

/-- What `mergeInto` stores at a key the override mentions (override keys
assumed distinct, as for a JavaScript object literal). -/
lemma getKey_mergeInto_mem (sf : List (String × JVal))
    (tf : List (String × JVal)) (k : String) (v : JVal)
    (hnd : (sf.map Prod.fst).Nodup) (h : getKey sf k = some v) :
    getKey (mergeInto tf sf) k = some (mergedValue tf k v) := by
  induction sf generalizing tf with
  | nil => exact absurd h (by simp [getKey])
  | cons p rest ih =>
    obtain ⟨k', v'⟩ := p
    simp only [List.map_cons, List.nodup_cons] at hnd
    obtain ⟨hknotin, hnd'⟩ := hnd
    have hrestk : ∀ q ∈ rest, q.1 ≠ k' := by
      intro q hq hqk
      exact hknotin (hqk ▸ List.mem_map_of_mem Prod.fst hq)
    by_cases hkk : k' = k
    · subst hkk
      have hv : v' = v := by
        unfold getKey at h
        rw [if_pos rfl] at h
        exact Option.some.inj h
      subst hv
      match v' with
      | JVal.str s =>
        rw [mergeInto_cons_nonobj _ _ _ _ (by simp [isObjectV]),
          getKey_mergeInto_not_mem _ _ _ hrestk, getKey_setKey_self]
        rfl
      | JVal.num q =>
        rw [mergeInto_cons_nonobj _ _ _ _ (by simp [isObjectV]),
          getKey_mergeInto_not_mem _ _ _ hrestk, getKey_setKey_self]
        rfl
      | JVal.bool b =>
        rw [mergeInto_cons_nonobj _ _ _ _ (by simp [isObjectV]),
          getKey_mergeInto_not_mem _ _ _ hrestk, getKey_setKey_self]
        rfl
      | JVal.null =>
        rw [mergeInto_cons_nonobj _ _ _ _ (by simp [isObjectV]),
          getKey_mergeInto_not_mem _ _ _ hrestk, getKey_setKey_self]
        rfl
      | JVal.arr xs =>
        rw [mergeInto_cons_nonobj _ _ _ _ (by simp [isObjectV]),
          getKey_mergeInto_not_mem _ _ _ hrestk, getKey_setKey_self]
        rfl
      | JVal.obj vf =>
        rw [mergeInto_cons_obj, getKey_mergeInto_not_mem _ _ _ hrestk,
          getKey_setKey_self, getKey_creation]
        simp [mergedValue]
    · have hrest : getKey rest k = some v := by
        unfold getKey at h
        rw [if_neg hkk] at h
        exact h
      have hpreserve : ∀ tf1 : List (String × JVal),
          getKey (setKey tf1 k' (JVal.obj [])) k = getKey tf1 k :=
        fun tf1 => getKey_setKey_other _ _ _ _ hkk
      match v' with
      | JVal.str s =>
        rw [mergeInto_cons_nonobj _ _ _ _ (by simp [isObjectV]),
          ih _ hnd' hrest]
        exact congrArg some (mergedValue_congr _ _ _ _
          (getKey_setKey_other _ _ _ _ hkk))
      | JVal.num q =>
        rw [mergeInto_cons_nonobj _ _ _ _ (by simp [isObjectV]),
          ih _ hnd' hrest]
        exact congrArg some (mergedValue_congr _ _ _ _
          (getKey_setKey_other _ _ _ _ hkk))
      | JVal.bool b =>
        rw [mergeInto_cons_nonobj _ _ _ _ (by simp [isObjectV]),
          ih _ hnd' hrest]
        exact congrArg some (mergedValue_congr _ _ _ _
          (getKey_setKey_other _ _ _ _ hkk))
      | JVal.null =>
        rw [mergeInto_cons_nonobj _ _ _ _ (by simp [isObjectV]),
          ih _ hnd' hrest]
        exact congrArg some (mergedValue_congr _ _ _ _
          (getKey_setKey_other _ _ _ _ hkk))
      | JVal.arr xs =>
        rw [mergeInto_cons_nonobj _ _ _ _ (by simp [isObjectV]),
          ih _ hnd' hrest]
        exact congrArg some (mergedValue_congr _ _ _ _
          (getKey_setKey_other _ _ _ _ hkk))
      | JVal.obj vf =>
        rw [mergeInto_cons_obj, ih _ hnd' hrest]
        refine congrArg some (mergedValue_congr _ _ _ _ ?_)
        rw [getKey_setKey_other _ _ _ _ hkk]
        by_cases htf : hasKey tf k'
        · rw [if_pos htf]
        · rw [if_neg htf, getKey_append]
          have hsingle : getKey [(k', JVal.obj [])] k = none := by
            simp [getKey, hkk]
          rw [hsingle]
          rcases getKey tf k with _ | w <;> rfl

lemma getKey_eq_none_iff (sf : List (String × JVal)) (k : String) :
    getKey sf k = none ↔ ∀ p ∈ sf, p.1 ≠ k := by
  induction sf with
  | nil => simp [getKey]
  | cons p rest ih =>
    obtain ⟨k', v⟩ := p
    by_cases h : k' = k
    · subst h
      simp [getKey]
    · simp [getKey, h, ih]

lemma mergedValue_nonobj (tf : List (String × JVal)) (k : String) (v : JVal)
    (h : isObjectV v = false) : mergedValue tf k v = v := by
  cases v <;> simp_all [mergedValue, isObjectV]

/-- A small concrete theme (colors / spacing / typography sections). -/
def sampleThemeFields : List (String × JVal) :=
  [("colors", JVal.obj [("primary", JVal.str "#5E81AC"),
      ("secondary", JVal.str "#81A1C1"), ("background", JVal.str "#2E3440")]),
   ("spacing", JVal.obj [("xs", JVal.num 4), ("sm", JVal.num 8),
      ("md", JVal.num 16)]),
   ("typography", JVal.obj [("fontFamily", JVal.str "System"),
      ("fontSize", JVal.obj [("md", JVal.num 16)])])]

/-- The override `{colors: {primary: '#ABCDEF'}}` of the spec's example. -/
def sampleOverrideFields : List (String × JVal) :=
  [("colors", JVal.obj [("primary", JVal.str "#ABCDEF")])]

/-- C1: `mergeTheme` deep-merges: keys absent from the override keep the
base's value; non-object override values replace outright; object override
values merge recursively into the base's object at that key (a fresh empty
object standing in when the key is absent); and on the concrete example the
merged theme changes `colors.primary` to `#ABCDEF` and nothing else. -/
theorem mergeTheme_deep_merge (bf sf : List (String × JVal))
    (hnd : (sf.map Prod.fst).Nodup) :
    (∀ k, getKey sf k = none →
      objGet (mergeTheme (JVal.obj bf) (JVal.obj sf)) k = getKey bf k) ∧
    (∀ k v, getKey sf k = some v → isObjectV v = false →
      objGet (mergeTheme (JVal.obj bf) (JVal.obj sf)) k = some v) ∧
    (∀ k vf tv, getKey sf k = some (JVal.obj vf) → getKey bf k = some tv →
      isObjectV tv = true →
      objGet (mergeTheme (JVal.obj bf) (JVal.obj sf)) k =
        some (deepMerge tv (JVal.obj vf))) ∧
    (∀ k vf, getKey sf k = some (JVal.obj vf) → getKey bf k = none →
      objGet (mergeTheme (JVal.obj bf) (JVal.obj sf)) k =
        some (deepMerge (JVal.obj []) (JVal.obj vf))) ∧
    mergeTheme (JVal.obj sampleThemeFields) (JVal.obj sampleOverrideFields) =
      JVal.obj
        [("colors", JVal.obj [("primary", JVal.str "#ABCDEF"),
            ("secondary", JVal.str "#81A1C1"),
            ("background", JVal.str "#2E3440")]),
         ("spacing", JVal.obj [("xs", JVal.num 4), ("sm", JVal.num 8),
            ("md", JVal.num 16)]),
         ("typography", JVal.obj [("fontFamily", JVal.str "System"),
            ("fontSize", JVal.obj [("md", JVal.num 16)])])] := by
  refine ⟨?_, ?_, ?_, ?_, ?_⟩
  · intro k hk
    show getKey (mergeInto bf sf) k = getKey bf k
    exact getKey_mergeInto_not_mem sf bf k ((getKey_eq_none_iff sf k).mp hk)
  · intro k v hk hv
    show getKey (mergeInto bf sf) k = some v
    rw [getKey_mergeInto_mem sf bf k v hnd hk, mergedValue_nonobj _ _ _ hv]
  · intro k vf tv hk htv hobj
    show getKey (mergeInto bf sf) k = some (deepMerge tv (JVal.obj vf))
    rw [getKey_mergeInto_mem sf bf k _ hnd hk]
    simp [mergedValue, htv, hobj]
  · intro k vf hk hnone
    show getKey (mergeInto bf sf) k = some (deepMerge (JVal.obj []) (JVal.obj vf))
    rw [getKey_mergeInto_mem sf bf k _ hnd hk]
    simp [mergedValue, hnone, isObjectV]
  · simp [sampleThemeFields, sampleOverrideFields, mergeTheme, deepMerge,
      mergeInto, setKey, getKey, hasKey, isObjectV]

/-- Witness for C1 at the concrete sample theme and override. -/
theorem mergeTheme_deep_merge_witness :
    objGet (mergeTheme (JVal.obj sampleThemeFields)
      (JVal.obj sampleOverrideFields)) "spacing" =
      getKey sampleThemeFields "spacing" :=
  (mergeTheme_deep_merge sampleThemeFields sampleOverrideFields
    (by simp [sampleOverrideFields])).1 "spacing" (by rfl)

/-! ### Color word dictionary -/

/-- An entry of the `colorWords` table
(src/core/src/constants/colorWords.ts). -/
structure ColorWord where
  hex : String
  category : String
  variants : List String
deriving DecidableEq

/-- `toLowerCase` restricted to ASCII letters, which covers every word in
the dictionary. -/
def jsCharToLower (c : Char) : Char :=
  match c with
  | 'A' => 'a' | 'B' => 'b' | 'C' => 'c' | 'D' => 'd' | 'E' => 'e'
  | 'F' => 'f' | 'G' => 'g' | 'H' => 'h' | 'I' => 'i' | 'J' => 'j'
  | 'K' => 'k' | 'L' => 'l' | 'M' => 'm' | 'N' => 'n' | 'O' => 'o'
  | 'P' => 'p' | 'Q' => 'q' | 'R' => 'r' | 'S' => 's' | 'T' => 't'
  | 'U' => 'u' | 'V' => 'v' | 'W' => 'w' | 'X' => 'x' | 'Y' => 'y'
  | 'Z' => 'z'
  | c => c

/-- `word.toLowerCase()`. -/
def jsToLower (s : String) : String := ⟨s.data.map jsCharToLower⟩

/-- `word.trim()`: strip whitespace from both ends. -/
def jsTrim (s : String) : String :=
  ⟨((s.data.dropWhile Char.isWhitespace).reverse.dropWhile
      Char.isWhitespace).reverse⟩

/-- `word.toLowerCase().trim()`. -/
def normalizeWord (w : String) : String := jsTrim (jsToLower w)

/-- The `colorWords` table of src/core/src/constants/colorWords.ts, in
insertion order. -/
def colorWords : List (String × ColorWord) :=
  [("red", ⟨"#FF0000", "primary",
      ["crimson", "scarlet", "ruby", "maroon", "burgundy"]⟩),
   ("blue", ⟨"#0000FF", "primary",
      ["azure", "sapphire", "navy", "cobalt", "indigo"]⟩),
   ("green", ⟨"#00FF00", "primary",
      ["emerald", "forest", "lime", "sage", "olive"]⟩),
   ("gray", ⟨"#808080", "neutral",
      ["silver", "slate", "charcoal", "ash", "graphite"]⟩),
   ("white", ⟨"#FFFFFF", "neutral", ["snow", "ivory", "pearl"]⟩),
   ("black", ⟨"#000000", "neutral", ["onyx", "ebony", "jet"]⟩),
   ("purple", ⟨"#800080", "accent",
      ["violet", "lavender", "plum", "mauve", "amethyst"]⟩),
   ("orange", ⟨"#FFA500", "accent",
      ["coral", "peach", "amber", "tangerine", "rust"]⟩),
   ("pink", ⟨"#FFC0CB", "accent",
      ["rose", "magenta", "fuchsia", "salmon"]⟩),
   ("yellow", ⟨"#FFFF00", "accent", ["gold", "lemon", "mustard", "honey"]⟩),
   ("brown", ⟨"#A52A2A", "neutral",
      ["chocolate", "coffee", "sienna", "mahogany", "bronze"]⟩),
   ("teal", ⟨"#008080", "accent", ["turquoise", "aqua", "cyan", "seafoam"]⟩)]

/-- Property access `colorWords[word]` on the table. -/
def findEntry : List (String × ColorWord) → String → Option ColorWord
  | [], _ => none
  | (k, d) :: rest, w => if k = w then some d else findEntry rest w

/-- The variant scan of `findColorByWord`: first entry (in insertion order)
whose variant list contains the word. -/
def scanVariants : List (String × ColorWord) → String → Option String
  | [], _ => none
  | (_, d) :: rest, w =>
    if d.variants.contains w then some d.hex else scanVariants rest w

/-- Body of `findColorByWord` on the already-normalised word: canonical
key first, then the variant scan. -/
def findColorByWordCore (normalized : String) : Option String :=
  match findEntry colorWords normalized with
  | some d => some d.hex
  | none => scanVariants colorWords normalized

/-- `findColorByWord` (src/core/src/constants/colorWords.ts). -/
def findColorByWord (word : String) : Option String :=
  findColorByWordCore (normalizeWord word)

example : findColorByWord "RED" = some "#FF0000" := by decide
example : findColorByWord "  Navy " = some "#0000FF" := by decide

/-- C8: `findColorByWord` lowercases and trims, checks canonical keys
first, then scans variant lists in insertion order; concretely `RED`/`red`
map to `#FF0000`, `navy` resolves through blue's variants to `#0000FF`,
and unknown words yield `null`. -/
theorem findColorByWord_spec :
    findColorByWord "RED" = some "#FF0000" ∧
    findColorByWord "red" = some "#FF0000" ∧
    findColorByWord "navy" = some "#0000FF" ∧
    findColorByWord "notacolor" = none ∧
    (∀ w, findColorByWord w = findColorByWordCore (jsTrim (jsToLower w))) ∧
    (∀ w d, findEntry colorWords (normalizeWord w) = some d →
      findColorByWord w = some d.hex) ∧
    (∀ w, findEntry colorWords (normalizeWord w) = none →
      findColorByWord w = scanVariants colorWords (normalizeWord w)) := by
  refine ⟨by decide, by decide, by decide, by decide, fun w => rfl, ?_, ?_⟩
  · intro w d h
    unfold findColorByWord findColorByWordCore
    rw [h]
  · intro w h
    unfold findColorByWord findColorByWordCore
    rw [h]

/-- Witness for C8 at the concrete word `navy`. -/
theorem findColorByWord_spec_witness :
    findColorByWord "navy" = scanVariants colorWords (normalizeWord "navy") :=
  findColorByWord_spec.2.2.2.2.2.2 "navy" (by decide)

/-! ### WCAG luminance and contrast (over ℝ, because of `Math.pow(·, 2.4)`) -/

/-- One channel of `calculateLuminance`: `s = c/255`, then the WCAG
linearisation branch. -/
noncomputable def linearizeChannel (c : ℚ) : ℝ :=
  if ((c : ℝ) / 255) ≤ 0.03928 then ((c : ℝ) / 255) / 12.92
  else (((c : ℝ) / 255 + 0.055) / 1.055) ^ (2.4 : ℝ)

/-- `calculateLuminance` of src/core/src/utils/colorConverter.ts (the same
formula appears verbatim as `ColorUtils.getLuminance` in
src/utils/colorUtils.ts and in the duplicate converter under types/). -/
noncomputable def calculateLuminance (c : RGB) : ℝ :=
  0.2126 * linearizeChannel c.r + 0.7152 * linearizeChannel c.g +
    0.0722 * linearizeChannel c.b

/-- `calculateContrast` on two luminances. -/
noncomputable def calculateContrast (l1 l2 : ℝ) : ℝ :=
  (max l1 l2 + 0.05) / (min l1 l2 + 0.05)

/-- Result record of `getAccessibilityInfo`; the two WCAG flags are the
boolean comparisons the source computes. -/
structure AccessibilityInfo where
  contrastWithWhite : ℝ
  contrastWithBlack : ℝ
  passesAA : Prop
  passesAAA : Prop

/-- `ColorConverter.getAccessibilityInfo`: contrast of the color's
luminance against white (luminance 1) and black (luminance 0). -/
noncomputable def getAccessibilityInfo (hex : String) :
    Option AccessibilityInfo :=
  (hexToRgb hex).map fun rgb =>
    { contrastWithWhite := calculateContrast (calculateLuminance rgb) 1
      contrastWithBlack := calculateContrast (calculateLuminance rgb) 0
      passesAA := max (calculateContrast (calculateLuminance rgb) 1)
        (calculateContrast (calculateLuminance rgb) 0) ≥ 4.5
      passesAAA := max (calculateContrast (calculateLuminance rgb) 1)
        (calculateContrast (calculateLuminance rgb) 0) ≥ 7 }

lemma linearizeChannel_nonneg (c : ℚ) (h0 : 0 ≤ c) :
    0 ≤ linearizeChannel c := by
  unfold linearizeChannel
  have hc : (0:ℝ) ≤ (c : ℝ) / 255 := by positivity
  split_ifs
  · positivity
  · positivity

lemma linearizeChannel_le_one (c : ℚ) (h0 : 0 ≤ c) (h1 : c ≤ 255) :
    linearizeChannel c ≤ 1 := by
  unfold linearizeChannel
  have hc0 : (0:ℝ) ≤ (c : ℝ) / 255 := by positivity
  have hc1 : (c : ℝ) / 255 ≤ 1 := by
    rw [div_le_one (by norm_num : (0:ℝ) < 255)]
    exact_mod_cast h1
  split_ifs with h
  · rw [div_le_one (show (0:ℝ) < 12.92 by norm_num)]
    linarith
  · have hbase0 : (0:ℝ) ≤ ((c : ℝ) / 255 + 0.055) / 1.055 := by positivity
    have hbase1 : ((c : ℝ) / 255 + 0.055) / 1.055 ≤ 1 := by
      rw [div_le_one (by norm_num : (0:ℝ) < 1.055)]
      linarith
    calc (((c : ℝ) / 255 + 0.055) / 1.055) ^ (2.4 : ℝ) ≤ 1 ^ (2.4 : ℝ) :=
          Real.rpow_le_rpow hbase0 hbase1 (by norm_num)
      _ = 1 := Real.one_rpow _

lemma calculateLuminance_bounds (r g b : ℚ) (hr0 : 0 ≤ r) (hr1 : r ≤ 255)
    (hg0 : 0 ≤ g) (hg1 : g ≤ 255) (hb0 : 0 ≤ b) (hb1 : b ≤ 255) :
    0 ≤ calculateLuminance ⟨r, g, b⟩ ∧ calculateLuminance ⟨r, g, b⟩ ≤ 1 := by
  have h1 := linearizeChannel_nonneg r hr0
  have h2 := linearizeChannel_nonneg g hg0
  have h3 := linearizeChannel_nonneg b hb0
  have h4 := linearizeChannel_le_one r hr0 hr1
  have h5 := linearizeChannel_le_one g hg0 hg1
  have h6 := linearizeChannel_le_one b hb0 hb1
  unfold calculateLuminance
  dsimp only
  constructor <;> nlinarith

/-- C10: every valid hex color passes WCAG AA against white or black —
`passesAA` can never be false. -/
theorem getAccessibilityInfo_always_passesAA (hex : String)
    (h : validHex6 hex = true) :
    ∃ info : AccessibilityInfo, getAccessibilityInfo hex = some info ∧
      info.passesAA := by
  obtain ⟨r, g, b, hparse, hr, hg, hb⟩ := hexToRgb_valid hex h
  obtain ⟨hl0, hl1⟩ := calculateLuminance_bounds (r:ℚ) (g:ℚ) (b:ℚ)
    (Nat.cast_nonneg r) (by exact_mod_cast hr) (Nat.cast_nonneg g)
    (by exact_mod_cast hg) (Nat.cast_nonneg b) (by exact_mod_cast hb)
  refine ⟨_, by rw [getAccessibilityInfo, hparse]; rfl, ?_⟩
  show max (calculateContrast (calculateLuminance ⟨(r:ℚ), (g:ℚ), (b:ℚ)⟩) 1)
    (calculateContrast (calculateLuminance ⟨(r:ℚ), (g:ℚ), (b:ℚ)⟩) 0) ≥ 4.5
  set L := calculateLuminance ⟨(r:ℚ), (g:ℚ), (b:ℚ)⟩ with hL
  have hcw : calculateContrast L 1 = 1.05 / (L + 0.05) := by
    unfold calculateContrast
    rw [max_eq_right hl1, min_eq_left hl1]
    norm_num
  have hcb : calculateContrast L 0 = (L + 0.05) / 0.05 := by
    unfold calculateContrast
    rw [max_eq_left hl0, min_eq_right hl0]
    norm_num
  by_contra hcon
  push_neg at hcon
  rw [max_lt_iff, hcw, hcb] at hcon
  obtain ⟨hc1, hc2⟩ := hcon
  have hpos : (0:ℝ) < L + 0.05 := by linarith
  rw [div_lt_iff₀ hpos] at hc1
  rw [div_lt_iff₀ (by norm_num : (0:ℝ) < 0.05)] at hc2
  linarith

/-- Witness for C10 at the concrete color `#000000`. -/
theorem getAccessibilityInfo_always_passesAA_witness :
    ∃ info : AccessibilityInfo,
      getAccessibilityInfo "#000000" = some info ∧ info.passesAA :=
  getAccessibilityInfo_always_passesAA "#000000" (by decide)

/-- Result record of `ColorDepthGenerator.generateSemanticColor`. -/
structure SemanticColor where
  base : String
  light : String
  dark : String
  bg : String
  text : String

/-- `ColorDepthGenerator.generateSemanticColor`
(src/core/src/generators/colorDepth.ts): lightness ±15 for light/dark,
saturation −30 and lightness 95 for bg, and text white exactly when
`contrastWithWhite > 4.5`, else black. -/
noncomputable def generateSemanticColor (baseColor : String) :
    Option SemanticColor :=
  match hexToRgb baseColor, getAccessibilityInfo baseColor with
  | some rgb, some info =>
    some
      { base := baseColor
        light := hslToHex ⟨(rgbToHsl rgb).h, (rgbToHsl rgb).s,
          min ((rgbToHsl rgb).l + 15) 100⟩
        dark := hslToHex ⟨(rgbToHsl rgb).h, (rgbToHsl rgb).s,
          max ((rgbToHsl rgb).l - 15) 0⟩
        bg := hslToHex ⟨(rgbToHsl rgb).h, max ((rgbToHsl rgb).s - 30) 0, 95⟩
        text := if info.contrastWithWhite > 4.5 then "#FFFFFF" else "#000000" }
  | _, _ => none

lemma luminance_767676 :
    calculateLuminance ⟨118, 118, 118⟩ = (5281/10761 : ℝ) ^ (2.4 : ℝ) := by
  have hch : linearizeChannel 118 = (5281/10761 : ℝ) ^ (2.4 : ℝ) := by
    unfold linearizeChannel
    rw [if_neg (by norm_num)]
    norm_num
  unfold calculateLuminance
  dsimp only
  rw [hch]
  ring

lemma pow5_rpow_key :
    (((5281/10761 : ℝ) ^ (2.4 : ℝ)) ^ (5:ℕ)) = (5281/10761 : ℝ) ^ (12:ℕ) := by
  rw [← Real.rpow_natCast ((5281/10761 : ℝ) ^ (2.4 : ℝ)) 5,
    ← Real.rpow_mul (by norm_num : (0:ℝ) ≤ 5281/10761)]
  rw [show ((2.4:ℝ) * ((5:ℕ):ℝ)) = ((12:ℕ):ℝ) by norm_num]
  rw [Real.rpow_natCast]

lemma lum767676_lb : (0.1792 : ℝ) < (5281/10761 : ℝ) ^ (2.4 : ℝ) := by
  have hy0 : (0:ℝ) ≤ (5281/10761 : ℝ) ^ (2.4 : ℝ) :=
    Real.rpow_nonneg (by norm_num) _
  refine lt_of_pow_lt_pow_left₀ 5 hy0 ?_
  rw [pow5_rpow_key]
  norm_num

lemma lum767676_ub : (5281/10761 : ℝ) ^ (2.4 : ℝ) < 11/60 := by
  refine lt_of_pow_lt_pow_left₀ 5 (by norm_num) ?_
  rw [pow5_rpow_key]
  norm_num

/-- C5 (counterexample): on `#767676` the code picks white text although
black yields strictly higher contrast against the base, so `text` is not
"whichever of white/black has the higher contrast ratio". -/
theorem generateSemanticColor_767676_picks_lower_contrast :
    ∃ sc : SemanticColor, ∃ info : AccessibilityInfo,
      generateSemanticColor "#767676" = some sc ∧
      getAccessibilityInfo "#767676" = some info ∧
      sc.text = "#FFFFFF" ∧
      info.contrastWithBlack > info.contrastWithWhite := by
  have hparse : hexToRgb "#767676" = some ⟨118, 118, 118⟩ := by decide
  set L : ℝ := calculateLuminance ⟨118, 118, 118⟩ with hLdef
  have hLeq : L = (5281/10761 : ℝ) ^ (2.4 : ℝ) := luminance_767676
  have hLlb : (0.1792 : ℝ) < L := hLeq ▸ lum767676_lb
  have hLub : L < 11/60 := hLeq ▸ lum767676_ub
  have hL0 : (0:ℝ) ≤ L := by linarith
  have hL1 : L ≤ 1 := by linarith
  have hcw : calculateContrast L 1 = 1.05 / (L + 0.05) := by
    unfold calculateContrast
    rw [max_eq_right hL1, min_eq_left hL1]
    norm_num
  have hcb : calculateContrast L 0 = (L + 0.05) / 0.05 := by
    unfold calculateContrast
    rw [max_eq_left hL0, min_eq_right hL0]
    norm_num
  have hinfo : getAccessibilityInfo "#767676" = some
      { contrastWithWhite := calculateContrast L 1
        contrastWithBlack := calculateContrast L 0
        passesAA := max (calculateContrast L 1) (calculateContrast L 0) ≥ 4.5
        passesAAA := max (calculateContrast L 1) (calculateContrast L 0) ≥ 7 } := by
    rw [getAccessibilityInfo, hparse]
    rfl
  have hcw45 : calculateContrast L 1 > 4.5 := by
    rw [hcw, gt_iff_lt, lt_div_iff₀ (by linarith : (0:ℝ) < L + 0.05)]
    nlinarith
  have hgen : generateSemanticColor "#767676" = some
      { base := "#767676"
        light := hslToHex ⟨(rgbToHsl ⟨118, 118, 118⟩).h,
          (rgbToHsl ⟨118, 118, 118⟩).s,
          min ((rgbToHsl ⟨118, 118, 118⟩).l + 15) 100⟩
        dark := hslToHex ⟨(rgbToHsl ⟨118, 118, 118⟩).h,
          (rgbToHsl ⟨118, 118, 118⟩).s,
          max ((rgbToHsl ⟨118, 118, 118⟩).l - 15) 0⟩
        bg := hslToHex ⟨(rgbToHsl ⟨118, 118, 118⟩).h,
          max ((rgbToHsl ⟨118, 118, 118⟩).s - 30) 0, 95⟩
        text := if calculateContrast L 1 > 4.5 then "#FFFFFF"
          else "#000000" } := by
    rw [generateSemanticColor, hparse, hinfo]
  refine ⟨_, _, hgen, hinfo, ?_, ?_⟩
  · show (if calculateContrast L 1 > 4.5 then "#FFFFFF" else "#000000") = "#FFFFFF"
    rw [if_pos hcw45]
  · show calculateContrast L 0 > calculateContrast L 1
    rw [hcw, hcb, gt_iff_lt,
      div_lt_div_iff₀ (by linarith : (0:ℝ) < L + 0.05)
        (by norm_num : (0:ℝ) < 0.05)]
    nlinarith

/-- C5 (amended): `text` is chosen by thresholding the contrast against
white at 4.5 — equivalently, white text exactly when the base color's
luminance is below `11/60` — rather than by comparing the two contrast
ratios. -/
theorem generateSemanticColor_text_threshold (hex : String)
    (hv : validHex6 hex = true) :
    ∃ sc : SemanticColor, ∃ c : RGB,
      generateSemanticColor hex = some sc ∧ hexToRgb hex = some c ∧
      (sc.text = "#FFFFFF" ∨ sc.text = "#000000") ∧
      (sc.text = "#FFFFFF" ↔ calculateLuminance c < 11/60) := by
  obtain ⟨r, g, b, hparse, hr, hg, hb⟩ := hexToRgb_valid hex hv
  obtain ⟨hl0, hl1⟩ := calculateLuminance_bounds (r:ℚ) (g:ℚ) (b:ℚ)
    (Nat.cast_nonneg r) (by exact_mod_cast hr) (Nat.cast_nonneg g)
    (by exact_mod_cast hg) (Nat.cast_nonneg b) (by exact_mod_cast hb)
  set L : ℝ := calculateLuminance ⟨(r:ℚ), (g:ℚ), (b:ℚ)⟩ with hLdef
  have hcw : calculateContrast L 1 = 1.05 / (L + 0.05) := by
    unfold calculateContrast
    rw [max_eq_right hl1, min_eq_left hl1]
    norm_num
  have hinfo : getAccessibilityInfo hex = some
      { contrastWithWhite := calculateContrast L 1
        contrastWithBlack := calculateContrast L 0
        passesAA := max (calculateContrast L 1) (calculateContrast L 0) ≥ 4.5
        passesAAA := max (calculateContrast L 1) (calculateContrast L 0) ≥ 7 } := by
    rw [getAccessibilityInfo, hparse]
    rfl
  have hgen : generateSemanticColor hex = some
      { base := hex
        light := hslToHex ⟨(rgbToHsl ⟨(r:ℚ), (g:ℚ), (b:ℚ)⟩).h,
          (rgbToHsl ⟨(r:ℚ), (g:ℚ), (b:ℚ)⟩).s,
          min ((rgbToHsl ⟨(r:ℚ), (g:ℚ), (b:ℚ)⟩).l + 15) 100⟩
        dark := hslToHex ⟨(rgbToHsl ⟨(r:ℚ), (g:ℚ), (b:ℚ)⟩).h,
          (rgbToHsl ⟨(r:ℚ), (g:ℚ), (b:ℚ)⟩).s,
          max ((rgbToHsl ⟨(r:ℚ), (g:ℚ), (b:ℚ)⟩).l - 15) 0⟩
        bg := hslToHex ⟨(rgbToHsl ⟨(r:ℚ), (g:ℚ), (b:ℚ)⟩).h,
          max ((rgbToHsl ⟨(r:ℚ), (g:ℚ), (b:ℚ)⟩).s - 30) 0, 95⟩
        text := if calculateContrast L 1 > 4.5 then "#FFFFFF"
          else "#000000" } := by
    rw [generateSemanticColor, hparse, hinfo]
  have hiff : calculateContrast L 1 > 4.5 ↔ L < 11/60 := by
    rw [hcw, gt_iff_lt, lt_div_iff₀ (by linarith : (0:ℝ) < L + 0.05)]
    constructor <;> intro h <;> linarith
  refine ⟨_, _, hgen, hparse, ?_, ?_⟩
  · by_cases hc : calculateContrast L 1 > 4.5
    · left
      show (if calculateContrast L 1 > 4.5 then "#FFFFFF" else "#000000") = _
      rw [if_pos hc]
    · right
      show (if calculateContrast L 1 > 4.5 then "#FFFFFF" else "#000000") = _
      rw [if_neg hc]
  · constructor
    · intro htext
      by_cases hc : calculateContrast L 1 > 4.5
      · exact hiff.mp hc
      · dsimp only at htext
        rw [if_neg hc] at htext
        exact absurd htext (by decide)
    · intro hL
      show (if calculateContrast L 1 > 4.5 then "#FFFFFF" else "#000000") = _
      rw [if_pos (hiff.mpr hL)]

/-- Witness for C5's amended statement at the concrete color `#000000`. -/
theorem generateSemanticColor_text_threshold_witness :
    ∃ sc : SemanticColor, ∃ c : RGB,
      generateSemanticColor "#000000" = some sc ∧
      hexToRgb "#000000" = some c ∧
      (sc.text = "#FFFFFF" ∨ sc.text = "#000000") ∧
      (sc.text = "#FFFFFF" ↔ calculateLuminance c < 11/60) :=
  generateSemanticColor_text_threshold "#000000" (by decide)

/-! ### ColorUtils (src/utils/colorUtils.ts) and `ensureContrast` -/

/-- `ColorUtils.getContrastRatio`: luminance-based contrast of two parsed
colors; `none` models the `NaN` poisoning of unparseable inputs. -/
noncomputable def getContrastRatio (color1 color2 : String) : Option ℝ :=
  match hexToRgb color1, hexToRgb color2 with
  | some c1, some c2 =>
    some ((max (calculateLuminance c1) (calculateLuminance c2) + 0.05) /
      (min (calculateLuminance c1) (calculateLuminance c2) + 0.05))
  | _, _ => none

/-- A JavaScript `<` against a possibly-`NaN` number: `NaN < y` is false. -/
noncomputable def jsLtB (x : Option ℝ) (y : ℝ) : Bool :=
  match x with
  | none => false
  | some v => decide (v < y)

/-- `ColorUtils.hexToHSL` duplicates the converter's RGB→HSL formula
verbatim, so it is the composite of the shared embeddings. -/
def hexToHSL (hex : String) : Option HSL := (hexToRgb hex).map rgbToHsl

/-- `ColorUtils.adjustContrast`: nudge lightness by ±5, clamped to
`[0,100]`.  On unparseable input the JavaScript `NaN` propagates into the
emitted string as `#NaNNaNNaN`. -/
def adjustContrast (color : String) (increase : Bool) : String :=
  match hexToHSL color with
  | some hsl => hslToHex ⟨hsl.h, hsl.s,
      max 0 (min 100 (hsl.l + (if increase then 5 else -5)))⟩
  | none => "#NaNNaNNaN"

/-- `ColorUtils.ensureContrast` as a fuel-indexed total function: `none`
means the `while` loop is still running after the given number of
iterations.  The loop keeps the current color once the ratio is no longer
below `minRatio`; the boolean passed to `adjustContrast` is the loop
condition itself, re-evaluated exactly as in the source. -/
noncomputable def ensureContrastFuel : ℕ → String → String → ℝ → Option String
  | 0, _, _, _ => none
  | n + 1, color, background, minRatio =>
    if jsLtB (getContrastRatio color background) minRatio then
      ensureContrastFuel n
        (adjustContrast color (jsLtB (getContrastRatio color background) minRatio))
        background minRatio
    else some color

lemma luminance_white : calculateLuminance ⟨255, 255, 255⟩ = 1 := by
  have hch : linearizeChannel 255 = 1 := by
    unfold linearizeChannel
    rw [if_neg (by norm_num)]
    rw [show (((255:ℚ):ℝ) / 255 + 0.055) / 1.055 = 1 by norm_num]
    exact Real.one_rpow _
  unfold calculateLuminance
  dsimp only
  rw [hch]
  norm_num

lemma contrast_of_whites (s1 s2 : String)
    (h1 : hexToRgb s1 = some ⟨255, 255, 255⟩)
    (h2 : hexToRgb s2 = some ⟨255, 255, 255⟩) :
    getContrastRatio s1 s2 = some 1 := by
  unfold getContrastRatio
  rw [h1, h2]
  show some ((max (calculateLuminance ⟨255, 255, 255⟩)
      (calculateLuminance ⟨255, 255, 255⟩) + 0.05) /
    (min (calculateLuminance ⟨255, 255, 255⟩)
      (calculateLuminance ⟨255, 255, 255⟩) + 0.05)) = some 1
  rw [luminance_white]
  norm_num

lemma rgbToHsl_white : rgbToHsl ⟨255, 255, 255⟩ = ⟨0, 0, 100⟩ := by
  unfold rgbToHsl
  norm_num

lemma adjust_of_white (s : String)
    (h : hexToRgb s = some ⟨255, 255, 255⟩) :
    adjustContrast s true = "#ffffff" := by
  unfold adjustContrast hexToHSL
  rw [h]
  show hslToHex ⟨(rgbToHsl ⟨255, 255, 255⟩).h, (rgbToHsl ⟨255, 255, 255⟩).s,
    max 0 (min 100 ((rgbToHsl ⟨255, 255, 255⟩).l +
      (if true = true then 5 else -5)))⟩ = "#ffffff"
  rw [rgbToHsl_white]
  show hslToHex ⟨0, 0, max 0 (min 100 (100 + (if true = true then 5 else -5)))⟩
    = "#ffffff"
  norm_num [hslToHex, hslToHexCore, rgbToHex, jsRound, clamp255]
  decide

/-- C6: `ensureContrast` is not total — on white-on-white with target 21
the loop never terminates (no amount of fuel suffices) — and whenever it
terminates, the returned color meets the requested ratio. -/
theorem ensureContrast_unbounded_or_sound :
    (∀ fuel : ℕ, ensureContrastFuel fuel "#FFFFFF" "#FFFFFF" 21 = none) ∧
    (∀ (fuel : ℕ) (c bg : String) (m : ℝ) (result : String) (v : ℝ),
      ensureContrastFuel fuel c bg m = some result →
      getContrastRatio result bg = some v → v ≥ m) := by
  have hlt1 : jsLtB (getContrastRatio "#ffffff" "#FFFFFF") 21 = true := by
    rw [contrast_of_whites _ _ (by decide) (by decide)]
    exact decide_eq_true (by norm_num)
  have hlt2 : jsLtB (getContrastRatio "#FFFFFF" "#FFFFFF") 21 = true := by
    rw [contrast_of_whites _ _ (by decide) (by decide)]
    exact decide_eq_true (by norm_num)
  have hinner : ∀ fuel : ℕ,
      ensureContrastFuel fuel "#ffffff" "#FFFFFF" 21 = none := by
    intro fuel
    induction fuel with
    | zero => rfl
    | succ n ih =>
      rw [ensureContrastFuel, hlt1, if_pos rfl,
        adjust_of_white _ (by decide)]
      exact ih
  constructor
  · intro fuel
    cases fuel with
    | zero => rfl
    | succ n =>
      rw [ensureContrastFuel, hlt2, if_pos rfl,
        adjust_of_white _ (by decide)]
      exact hinner n
  · intro fuel
    induction fuel with
    | zero => intro c bg m result v hsome; exact absurd hsome (by simp [ensureContrastFuel])
    | succ n ih =>
      intro c bg m result v hsome hratio
      rw [ensureContrastFuel] at hsome
      by_cases hcond : jsLtB (getContrastRatio c bg) m = true
      · rw [hcond, if_pos rfl] at hsome
        exact ih _ _ _ _ _ hsome hratio
      · rw [Bool.not_eq_true] at hcond
        rw [hcond] at hsome
        simp only [Bool.false_eq_true, if_false] at hsome
        have hcr : c = result := Option.some.inj hsome
        subst hcr
        rw [hratio] at hcond
        have : ¬ (v < m) := of_decide_eq_false hcond
        linarith

lemma luminance_black : calculateLuminance ⟨0, 0, 0⟩ = 0 := by
  have hch : linearizeChannel 0 = 0 := by
    unfold linearizeChannel
    rw [if_pos (by norm_num)]
    norm_num
  unfold calculateLuminance
  dsimp only
  rw [hch]
  ring

lemma contrast_black_white : getContrastRatio "#000000" "#FFFFFF" = some 21 := by
  unfold getContrastRatio
  rw [show hexToRgb "#000000" = some ⟨0, 0, 0⟩ from by decide,
    show hexToRgb "#FFFFFF" = some ⟨255, 255, 255⟩ from by decide]
  show some ((max (calculateLuminance ⟨0, 0, 0⟩)
      (calculateLuminance ⟨255, 255, 255⟩) + 0.05) /
    (min (calculateLuminance ⟨0, 0, 0⟩)
      (calculateLuminance ⟨255, 255, 255⟩) + 0.05)) = some 21
  rw [luminance_black, luminance_white]
  norm_num

/-- Witness for C6: a terminating run (black on white at target 4.5)
returns a color whose ratio meets the target. -/
theorem ensureContrast_unbounded_or_sound_witness :
    ensureContrastFuel 1 "#000000" "#FFFFFF" 4.5 = some "#000000" ∧
      getContrastRatio "#000000" "#FFFFFF" = some 21 ∧ (21:ℝ) ≥ 4.5 := by
  have heval : ensureContrastFuel 1 "#000000" "#FFFFFF" 4.5 = some "#000000" := by
    rw [ensureContrastFuel, contrast_black_white]
    rw [show jsLtB (some 21) 4.5 = false from decide_eq_false (by norm_num)]
    simp
  exact ⟨heval, contrast_black_white,
    ensureContrast_unbounded_or_sound.2 1 "#000000" "#FFFFFF" 4.5 "#000000" 21
      heval contrast_black_white⟩

/-! ### ThemeValidator (src/core/src/utils/validation.ts) -/

structure ValidationError where
  path : List String
  message : String
deriving DecidableEq

structure ValidationResult where
  isValid : Bool
  errors : List ValidationError
deriving DecidableEq

/-- Test of `/^#([A-Fa-f0-9]{6}|[A-Fa-f0-9]{3})$/`. -/
def hexColorTest (s : String) : Bool :=
  match s.data with
  | '#' :: rest =>
    (rest.length == 6 || rest.length == 3) && rest.all isHexDigitChar
  | _ => false

/-- Consume one-or-more decimal digits (`\d+`), returning the rest. -/
def eatDigits1 (l : List Char) : Option (List Char) :=
  match l with
  | c :: rest => if c.isDigit then some (rest.dropWhile Char.isDigit) else none
  | [] => none

/-- Consume an optional fractional part (`(?:\.\d+)?`). -/
def eatFrac (l : List Char) : List Char :=
  match l with
  | '.' :: c :: rest =>
    if c.isDigit then rest.dropWhile Char.isDigit else l
  | _ => l

/-- The optional fourth argument and closing parenthesis of the
`rgb()`/`rgba()` pattern: `(?:,\s*(\d+(?:\.\d+)?))?\)$`. -/
def rgbTail (l : List Char) : Bool :=
  match l with
  | [')'] => true
  | ',' :: r =>
    match eatDigits1 (r.dropWhile Char.isWhitespace) with
    | some r2 => eatFrac r2 == [')']
    | none => false
  | _ => false

/-- Test of `/^rgba?\((\d+),\s*(\d+),\s*(\d+)(?:,\s*(\d+(?:\.\d+)?))?\)$/`. -/
def rgbColorTest (s : String) : Bool :=
  match s.data with
  | 'r' :: 'g' :: 'b' :: rest =>
    let rest1 := match rest with | 'a' :: r => r | r => r
    match rest1 with
    | '(' :: r2 =>
      match eatDigits1 r2 with
      | some r3 =>
        match r3 with
        | ',' :: r4 =>
          match eatDigits1 (r4.dropWhile Char.isWhitespace) with
          | some r5 =>
            match r5 with
            | ',' :: r6 =>
              match eatDigits1 (r6.dropWhile Char.isWhitespace) with
              | some r7 => rgbTail r7
              | none => false
            | _ => false
          | none => false
        | _ => false
      | none => false
    | _ => false
  | _ => false

/-- `ThemeValidator.isValidColor`: hex pattern or `rgb()`/`rgba()`
pattern. -/
def isValidColor (color : String) : Bool :=
  hexColorTest color || rgbColorTest color

example : isValidColor "#AbC123" = true := by decide
example : isValidColor "#abc" = true := by decide
example : isValidColor "rgb(1,2,3)" = true := by decide
example : isValidColor "rgba(1, 2, 3, 0.5)" = true := by decide
example : isValidColor "not-a-color" = false := by decide
example : isValidColor "rgb(1,2)" = false := by decide

def allowedThemeKeys : List String := ["colors", "spacing", "typography"]

def allowedColorKeys : List String :=
  ["primary", "primaryContent", "secondary", "secondaryContent", "accent",
   "accentContent", "background", "backgroundAlt", "backgroundContent",
   "surface", "surfaceContent", "success", "successContent", "warning",
   "warningContent", "error", "errorContent", "info", "infoContent",
   "text", "textAlt", "textMuted"]

/-- `validateStructure`: one error per unknown top-level key. -/
def validateStructure (override : List (String × JVal)) :
    List ValidationError :=
  override.flatMap fun p =>
    if allowedThemeKeys.contains p.1 then []
    else [⟨[p.1], "Invalid theme key: " ++ p.1⟩]

/-- `validateColors`: unknown color-role keys, and string values failing
`isValidColor`. -/
def validateColors (colors : List (String × JVal)) : List ValidationError :=
  colors.flatMap fun p =>
    (if allowedColorKeys.contains p.1 then []
      else [⟨["colors", p.1], "Invalid color key: " ++ p.1⟩]) ++
    (match p.2 with
      | JVal.str v =>
        if isValidColor v then []
        else [⟨["colors", p.1], "Invalid color value: " ++ v⟩]
      | _ => [])

/-- JavaScript truthiness of an optional property. -/
def truthy : Option JVal → Bool
  | none => false
  | some (JVal.str s) => !(s == "")
  | some (JVal.num q) => !(q == 0)
  | some (JVal.bool b) => b
  | some JVal.null => false
  | some (JVal.arr _) => true
  | some (JVal.obj _) => true

/-- The string a color-override value denotes when handed to
`getContrastRatio` (the source casts with `as string`; only string values
reach this point in well-typed callers). -/
def jvalAsString : Option JVal → String
  | some (JVal.str s) => s
  | _ => ""

/-- The nine fixed content/background pairs of `validateAccessibility`. -/
def accessibilityPairs : List (String × String) :=
  [("primaryContent", "primary"), ("secondaryContent", "secondary"),
   ("accentContent", "accent"), ("text", "background"),
   ("textAlt", "backgroundAlt"), ("successContent", "success"),
   ("warningContent", "warning"), ("errorContent", "error"),
   ("infoContent", "info")]

/-- `validateAccessibility`: for each pair with both colors present
(truthy), flag a contrast ratio below 4.5.  The numeric interpolation of
`ratio.toFixed(2)` in the source's message is abstracted away. -/
noncomputable def validateAccessibility (colors : List (String × JVal)) :
    List ValidationError :=
  accessibilityPairs.flatMap fun p =>
    if truthy (getKey colors p.1) && truthy (getKey colors p.2) then
      if jsLtB (getContrastRatio (jvalAsString (getKey colors p.1))
          (jvalAsString (getKey colors p.2))) 4.5 then
        [⟨["colors", p.1], "Insufficient contrast with " ++ p.2⟩]
      else []
    else []

/-- `ThemeValidator.validateOverride`: the three passes concatenated, with
`isValid` true exactly when no error was produced. -/
noncomputable def validateOverride (override : List (String × JVal)) :
    ValidationResult :=
  let errors := validateStructure override ++
    (match getKey override "colors" with
      | some (JVal.obj colors) => validateColors colors
      | _ => []) ++
    (match getKey override "colors" with
      | some (JVal.obj colors) => validateAccessibility colors
      | _ => [])
  { isValid := errors.length == 0, errors := errors }

lemma length_beq_zero_iff (l : List ValidationError) :
    ((l.length == 0) = true) ↔ l = [] := by
  simp [List.length_eq_zero]

/-- C7: `isValid` is true exactly when the error list is empty, and on the
override `{colors: {primary: 'not-a-color'}}` validation fails with the
single error path `["colors","primary"]` (the value matches neither the
hex nor the `rgb()`/`rgba()` pattern). -/
theorem validateOverride_spec :
    (∀ o : List (String × JVal),
      ((validateOverride o).isValid = true ↔ (validateOverride o).errors = [])) ∧
    validateOverride [("colors", JVal.obj [("primary", JVal.str "not-a-color")])] =
      { isValid := false,
        errors := [⟨["colors", "primary"],
          "Invalid color value: " ++ "not-a-color"⟩] } ∧
    isValidColor "not-a-color" = false ∧
    hexColorTest "not-a-color" = false ∧ rgbColorTest "not-a-color" = false := by
  refine ⟨?_, ?_, by decide, by decide, by decide⟩
  · intro o
    exact length_beq_zero_iff _
  · have hacc : validateAccessibility [("primary", JVal.str "not-a-color")]
        = [] := by
      simp +decide [validateAccessibility, accessibilityPairs, getKey, truthy]
    have hstruct : validateStructure
        [("colors", JVal.obj [("primary", JVal.str "not-a-color")])] = [] := by
      decide
    have hcolors : validateColors [("primary", JVal.str "not-a-color")] =
        [⟨["colors", "primary"], "Invalid color value: " ++ "not-a-color"⟩] := by
      decide
    unfold validateOverride
    rw [show getKey [("colors", JVal.obj [("primary", JVal.str "not-a-color")])]
        "colors" = some (JVal.obj [("primary", JVal.str "not-a-color")])
      from rfl]
    dsimp only
    rw [hacc, hstruct, hcolors]
    rfl

/-! ### The duplicate converter's `rgbToHex` (src/core/src/types/utils/colorConverter.ts) -/

/-- Hex digits of a natural number, most significant first
(`n.toString(16)` for naturals; the fuel argument only drives structural
recursion and `n+1` always suffices). -/
def natToHexDigitsAux : ℕ → ℕ → List Char
  | 0, _ => []
  | fuel + 1, n =>
    if n < 16 then [hexDigitChar n]
    else natToHexDigitsAux fuel (n / 16) ++ [hexDigitChar (n % 16)]

/-- `n.toString(16)` for a natural number. -/
def natToHexDigits (n : ℕ) : List Char := natToHexDigitsAux (n + 1) n

/-- `n.toString(16)` for an integer (sign prefix for negatives). -/
def intToString16 (n : ℤ) : List Char :=
  if n < 0 then '-' :: natToHexDigits n.natAbs else natToHexDigits n.toNat

/-- `padStart(2, '0')`. -/
def padStart2 (l : List Char) : List Char :=
  List.replicate (2 - l.length) '0' ++ l

/-- `ColorConverter.rgbToHex` of the duplicate converter under
`src/core/src/types/utils/colorConverter.ts`: no clamping and no rounding,
just `toString(16).padStart(2,'0')` per channel.  It is embedded on
integer channels; fractional JavaScript numbers format via binary floats
and are outside this model. -/
def rgbToHexNoClamp (r g b : ℤ) : String :=
  ⟨'#' :: (padStart2 (intToString16 r) ++ padStart2 (intToString16 g) ++
    padStart2 (intToString16 b))⟩

example : rgbToHexNoClamp 255 0 7 = "#ff0007" := by decide
example : rgbToHexNoClamp 300 0 0 = "#12c0000" := by decide

/-- C9 (counterexample): the duplicate converter's `rgbToHex` does not
clamp — channel 300 yields the malformed 8-digit string `#12c0000`
(9 characters, not a `#RRGGBB` color). -/
theorem rgbToHexNoClamp_malformed :
    rgbToHexNoClamp 300 0 0 = "#12c0000" ∧
      (rgbToHexNoClamp 300 0 0).length ≠ 7 ∧
      validHex6 (rgbToHexNoClamp 300 0 0) = false := by
  refine ⟨by decide, by decide, by decide⟩

/-- Is the character a lowercase hex digit? -/
def isLowerHexDigitChar (c : Char) : Bool :=
  match c with
  | '0' | '1' | '2' | '3' | '4' | '5' | '6' | '7' | '8' | '9'
  | 'a' | 'b' | 'c' | 'd' | 'e' | 'f' => true
  | _ => false

lemma hexDigitChar_lower (n : ℕ) : isLowerHexDigitChar (hexDigitChar n) = true := by
  unfold hexDigitChar
  split <;> rfl

lemma hexDigitChar_isHex (n : ℕ) : isHexDigitChar (hexDigitChar n) = true := by
  unfold hexDigitChar
  split <;> rfl

/-- C9 (amended): the converter's `rgbToHex` that the generators use
(src/core/src/utils/colorConverter.ts, also `ColorUtils.rgbToHex`) rounds
then clamps each channel — equivalently clamps then rounds — and always
emits `#` followed by exactly six lowercase hex digits, a valid hex color
parsing back to the clamped rounded channels; the unused duplicate under
types/utils lacks the clamp and can emit malformed strings. -/
theorem rgbToHex_clamps_and_wellformed (r g b : ℚ) :
    (rgbToHex r g b).length = 7 ∧
    (rgbToHex r g b).data.head? = some '#' ∧
    (∀ c ∈ (rgbToHex r g b).data.tail, isLowerHexDigitChar c = true) ∧
    validHex6 (rgbToHex r g b) = true ∧
    hexToRgb (rgbToHex r g b) =
      some ⟨((jsRound (max 0 (min 255 r)) : ℤ) : ℚ),
            ((jsRound (max 0 (min 255 g)) : ℤ) : ℚ),
            ((jsRound (max 0 (min 255 b)) : ℤ) : ℚ)⟩ := by
  refine ⟨rfl, rfl, ?_, ?_, ?_⟩
  · intro c hc
    simp only [rgbToHex, toHex2, List.cons_append, List.nil_append,
      List.tail_cons, List.mem_cons, List.mem_singleton,
      List.not_mem_nil, or_false] at hc
    rcases hc with rfl | rfl | rfl | rfl | rfl | rfl <;>
      exact hexDigitChar_lower _
  · show validHex6 ⟨'#' :: _⟩ = true
    unfold validHex6
    simp only [List.all_cons, List.all_nil, List.length_cons,
      List.cons_append, List.nil_append]
    simp [toHex2, hexDigitChar_isHex]
  · rw [hexToRgb_rgbToHex_raw, clamp255_jsRound_comm, clamp255_jsRound_comm,
      clamp255_jsRound_comm]

/-- Witness for C9's amended statement at out-of-range fractional input. -/
theorem rgbToHex_clamps_and_wellformed_witness :
    validHex6 (rgbToHex (601/2) (-2) 7) = true :=
  (rgbToHex_clamps_and_wellformed (601/2) (-2) 7).2.2.2.1

/-- Witness for C3 at concrete out-of-range and fractional channels. -/
theorem hexToRgb_rgbToHex_witness :
    hexToRgb (rgbToHex 300 (-2) (1/2)) = some ⟨255, 0, 1⟩ := by
  rw [hexToRgb_rgbToHex 300 (-2) (1/2)]
  norm_num [jsRound]

/-- Witness for C4 at the concrete color `#3a7bd5`. -/
theorem hsl_hex_roundtrip_witness :
    ∃ c c' : RGB, hexToRgb "#3a7bd5" = some c ∧
      hexToRgb (hslToHex (rgbToHsl c)) = some c' ∧
      |c'.r - c.r| ≤ 1 ∧ |c'.g - c.g| ≤ 1 ∧ |c'.b - c.b| ≤ 1 :=
  hsl_hex_roundtrip "#3a7bd5" (by decide)

/-- Witness for C2's amended statement at the concrete color `#808080`. -/
theorem generateColorDepth_shade_lightness_witness :
    ∃ D : ColorDepth, generateColorDepth "#808080" = some D ∧
      D.k500 = "#808080" ∧
      ∃ l50 l100 l200 l300 l400 lbase l600 l700 l800 l900 : ℚ,
        hslLightness D.k50 = some l50 ∧ hslLightness D.k100 = some l100 ∧
        hslLightness D.k200 = some l200 ∧ hslLightness D.k300 = some l300 ∧
        hslLightness D.k400 = some l400 ∧ hslLightness D.k500 = some lbase ∧
        hslLightness D.k600 = some l600 ∧ hslLightness D.k700 = some l700 ∧
        hslLightness D.k800 = some l800 ∧ hslLightness D.k900 = some l900 ∧
        l50 > l100 ∧ l100 > l200 ∧ l200 > l300 ∧ l300 > l400 ∧ l400 > l600 ∧
        l600 > l700 ∧ l700 > l800 ∧ l800 > l900 ∧
        (201/5 ≤ lbase → lbase ≤ 299/5 → l400 > lbase ∧ lbase > l600) :=
  generateColorDepth_shade_lightness "#808080" (by decide)

/-- Witness for C7: the equivalence instantiated at the example override. -/
theorem validateOverride_spec_witness :
    (validateOverride [("colors", JVal.obj [("primary",
      JVal.str "not-a-color")])]).isValid = true ↔
    (validateOverride [("colors", JVal.obj [("primary",
      JVal.str "not-a-color")])]).errors = [] :=
  validateOverride_spec.1 [("colors", JVal.obj [("primary",
    JVal.str "not-a-color")])]
